import Mathlib

/-!
Shallow embedding of the anomaly-detection pipeline of the
shinsei-api-python repository.

The repository contains two implementations of the same pipeline:
* `src/detector_anomalias.py` (class `DetectorAnomalias` and
  `DetectorAnomaliasPorCliente`), embedded below in namespace `Det`;
* `src/app.py` (classes of the same names plus the Flask routes, which are
  outside the pipeline core), embedded below in namespace `App`.

Conventions of the embedding:
* Python floats are modelled as `ℚ`.  `np.std`, an irrational square root,
  is not used by any downstream computation of the source and is left out
  of the `Estatisticas` record.
* A cargo record (a Python dict) is a `Carga`; a dict key that may be
  absent is an `Option`.  The raw `CARGAS_VALOR` entry is a `RawVal`:
  `float()` coercion of it can succeed, default to `0`, or raise.
* A raised Python exception is `Except.error msg`; code that cannot raise
  returns plainly.
* The IsolationForest scorer is an external collaborator: the pair of
  calls `fit_predict` / `score_samples` is abstracted as one function
  argument of type `Scorer` producing the label vector (`-1` = outlier)
  and the raw score vector.
* Result dicts are `Resultado` records whose optional keys are `Option`
  fields (`none` = key absent).  An anomaly dict is an `Anomalia`; its
  `chassis` and `score_anomalia` keys are the two keys that not every
  producer writes, hence those two fields are `Option`-wrapped presence.
* `int(x)` is `pyTrunc` (truncation toward zero), `round(x, 2)` is
  `round2` (round half to even at two decimals, as Python rounds), and
  the `f"{v:,.0f}"` format is `fmtComma`.
* `np.percentile(xs, p)` (linear interpolation, the numpy default) is
  `percentile`; `np.median` is `percentile _ 50`; `np.mean`, `np.min`,
  `np.max` are `npMean`, `npMin`, `npMax`.
-/

/-- Python `int(x)` on a float: truncation toward zero. -/
def pyTrunc (q : ℚ) : ℤ := if 0 ≤ q then ⌊q⌋ else ⌈q⌉

/-- Python `round(x)` to an integer: round half to even. -/
def pyRound (q : ℚ) : ℤ :=
  if q - ⌊q⌋ < 1/2 then ⌊q⌋
  else if 1/2 < q - ⌊q⌋ then ⌊q⌋ + 1
  else if ⌊q⌋ % 2 = 0 then ⌊q⌋ else ⌊q⌋ + 1

/-- Python `round(x, 2)`: round half to even at two decimal places. -/
def round2 (q : ℚ) : ℚ := (pyRound (q * 100) : ℚ) / 100

/-- Digit grouping used by the `,` flag of Python string formatting:
insert a comma every three digits, counting from the right. -/
def groupDigits (s : String) : String :=
  let chunk : List Char → List Char := fun cs =>
    List.intercalate [','] (cs.toChunks 3)
  String.mk ((chunk s.data.reverse).reverse)

/-- Python `f"{v:,.0f}"`: round to zero decimals (half to even), keep the
sign of the original value, and group digits by thousands. -/
def fmtComma (q : ℚ) : String :=
  (if q < 0 then "-" else "") ++ groupDigits (toString (pyRound q).natAbs)

/-- `np.mean` of a value vector. -/
def npMean (xs : List ℚ) : ℚ := xs.sum / xs.length

/-- `np.min` of a value vector (numpy raises on an empty array; the
pipeline only applies it to non-empty vectors). -/
def npMin : List ℚ → ℚ
  | [] => 0
  | x :: t => t.foldl min x

/-- `np.max` of a value vector (numpy raises on an empty array; the
pipeline only applies it to non-empty vectors). -/
def npMax : List ℚ → ℚ
  | [] => 0
  | x :: t => t.foldl max x

/-- The sorted copy of the value vector that `np.percentile` works on. -/
def sortVals (xs : List ℚ) : List ℚ := List.insertionSort (· ≤ ·) xs

/-- Entry `i` of a sorted vector, with the index clamped to the last
position (numpy never reads past the last order statistic). -/
def nthC (s : List ℚ) (i : ℕ) : ℚ := s.getD (min i (s.length - 1)) 0

/-- Linear interpolation between adjacent order statistics at fractional
position `h`, as `np.percentile` computes it. -/
def interpAt (s : List ℚ) (h : ℚ) : ℚ :=
  nthC s ⌊h⌋.toNat + (h - (⌊h⌋ : ℚ)) * (nthC s (⌊h⌋.toNat + 1) - nthC s ⌊h⌋.toNat)

/-- `np.percentile(xs, p)` with the default linear-interpolation method:
interpolate the sorted vector at position `p/100 · (n-1)`. -/
def percentile (xs : List ℚ) (p : ℚ) : ℚ :=
  interpAt (sortVals xs) (p / 100 * ((xs.length : ℚ) - 1))

/-- The raw `CARGAS_VALOR` dict entry before `float()` coercion. -/
inductive RawVal where
  /-- The key is absent: `c.get('CARGAS_VALOR', 0)` yields the default `0`. -/
  | missing : RawVal
  /-- A numeric (or numeric-coercible) value. -/
  | num (q : ℚ) : RawVal
  /-- A value on which `float()` raises, carrying the exception message. -/
  | bad (msg : String) : RawVal
deriving DecidableEq

/-- `float(c.get('CARGAS_VALOR', 0))`. -/
def floatOf : RawVal → Except String ℚ
  | .missing => .ok 0
  | .num q => .ok q
  | .bad msg => .error msg

/-- One cargo record (input dict).  `none` models an absent key (or a
`None` value, which `dict.get` does not distinguish from an absent key
for the accesses the source performs). -/
structure Carga where
  id : Option ℤ
  veiculo : Option String
  chassis : Option String
  valorRaw : RawVal
deriving DecidableEq

/-- The anomaly-type strings returned by `_classificar_anomalia`, plus the
one produced by the historical augmenter. -/
inductive TipoAnomalia where
  | MUITO_ALTO | ALTO | MUITO_BAIXO | BAIXO | OUTLIER | FORA_DO_HISTORICO
deriving DecidableEq

/-- The dict returned by `_calcular_estatisticas`.  The `desvio_padrao`
entry (`np.std`, an irrational square root) is not representable in `ℚ`
and is read by nothing downstream in the source, so it is left out. -/
structure Estatisticas where
  media : ℚ
  mediana : ℚ
  minimo : ℚ
  maximo : ℚ
  q1 : ℚ
  q3 : ℚ
  iqr : ℚ
deriving DecidableEq

/-- One anomaly dict.  `chassis` and `score_anomalia` are the two keys not
written by every producer, so their outer `Option` models key presence
(`none` = the key is absent from the dict). -/
structure Anomalia where
  id : Option ℤ
  veiculo : Option String
  chassis : Option (Option String)
  valor : ℚ
  tipo : TipoAnomalia
  severidade : ℤ
  score_anomalia : Option ℚ
  sugestao : String
  valor_esperado : ℚ
deriving DecidableEq

/-- The `stats_historico` dict of `analisar_com_historico`. -/
structure HistStats where
  media_historica : ℚ
  mediana_historica : ℚ
  max_historico : ℚ
  min_historico : ℚ
deriving DecidableEq

/-- The analysis-result dict.  Optional fields model keys that are present
only on some paths. -/
structure Resultado where
  anomalias : List Anomalia
  estatisticas : Option Estatisticas
  total_cargas : Option ℕ
  total_anomalias : Option ℕ
  percentual_anomalias : Option ℚ
  aviso : Option String
  erro : Option String
  comparacao_historico : Option HistStats
deriving DecidableEq

/-- The external IsolationForest collaborator: one invocation yielding the
`fit_predict` label vector (`-1` = outlier, `1` = inlier) and the
`score_samples` raw-score vector, or an internal failure. -/
abbrev Scorer := List ℚ → Except String (List ℤ × List ℚ)

/-- The list comprehension
`[float(c.get('CARGAS_VALOR', 0)) for c in cargas]`, raising at the first
non-coercible value.  Identical in both source files. -/
def extrair_valores (cargas : List Carga) : Except String (List ℚ) :=
  cargas.mapM (fun c => floatOf c.valorRaw)

/-- The warning string for batches of fewer than 3 records (identical in
both source files). -/
def avisoInsuficiente : String :=
  "Número insuficiente de cargas para análise (mínimo 3)"

/-- The result returned for batches of fewer than 3 records (identical in
both source files). -/
def avisoResultado : Resultado :=
  { anomalias := [], estatisticas := none, total_cargas := none,
    total_anomalias := none, percentual_anomalias := none,
    aviso := some avisoInsuficiente, erro := none,
    comparacao_historico := none }

/-- `_classificar_anomalia` (identical in both source files). -/
def classificar_anomalia (valor : ℚ) (stats : Estatisticas) : TipoAnomalia :=
  if stats.q3 + 1.5 * stats.iqr < valor then
    if stats.media * 2 < valor then .MUITO_ALTO else .ALTO
  else if valor < stats.q1 - 1.5 * stats.iqr then
    if valor < stats.media * 0.5 then .MUITO_BAIXO else .BAIXO
  else .OUTLIER

/-- `_calcular_severidade` (identical in both source files); the locals
`min_score` / `max_score` of the source are inlined. -/
def calcular_severidade (score : ℚ) (todos_scores : List ℚ) : ℤ :=
  if npMax todos_scores = npMin todos_scores then 50
  else pyTrunc
    (100 - (score - npMin todos_scores) /
      (npMax todos_scores - npMin todos_scores) * 100)

namespace Det

/-- `DetectorAnomalias._calcular_estatisticas` of `detector_anomalias.py`:
every entry kept as a float. -/
def calcular_estatisticas (valores : List ℚ) : Estatisticas :=
  { media := npMean valores,
    mediana := percentile valores 50,
    minimo := npMin valores,
    maximo := npMax valores,
    q1 := percentile valores 25,
    q3 := percentile valores 75,
    iqr := percentile valores 75 - percentile valores 25 }

/-- `DetectorAnomalias._gerar_sugestao` of `detector_anomalias.py`. -/
def gerar_sugestao (valor : ℚ) (stats : Estatisticas) (tipo : TipoAnomalia) : String :=
  match tipo with
  | .MUITO_ALTO =>
      "Valor " ++ fmtComma valor ++ " está muito acima da média (" ++
        fmtComma stats.media ++ "). Verifique se não há zeros extras."
  | .ALTO =>
      "Valor " ++ fmtComma valor ++ " está acima do esperado (" ++
        fmtComma stats.mediana ++ "). Confirme se está correto."
  | .MUITO_BAIXO =>
      "Valor " ++ fmtComma valor ++ " está muito abaixo da média (" ++
        fmtComma stats.media ++ "). Verifique se não faltam dígitos."
  | .BAIXO =>
      "Valor " ++ fmtComma valor ++ " está abaixo do esperado (" ++
        fmtComma stats.mediana ++ "). Confirme se está correto."
  | .OUTLIER =>
      "Valor " ++ fmtComma valor ++ " é incomum. Valor típico é ¥" ++
        fmtComma stats.mediana ++ "."
  | _ => "Verifique este valor."

/-- The anomaly dict appended for a flagged record in
`DetectorAnomalias.analisar_cargas` of `detector_anomalias.py`. -/
def mk_anomalia (est : Estatisticas) (scores : List ℚ) (c : Carga)
    (valor : ℚ) (score : ℚ) : Anomalia :=
  { id := c.id,
    veiculo := c.veiculo,
    chassis := some c.chassis,
    valor := valor,
    tipo := classificar_anomalia valor est,
    severidade := calcular_severidade score scores,
    score_anomalia := some score,
    sugestao := gerar_sugestao valor est (classificar_anomalia valor est),
    valor_esperado := est.mediana }

/-- `DetectorAnomalias.analisar_cargas` of `detector_anomalias.py`.  The
body has no `try`: a coercion or scorer failure propagates to the caller
(`Except.error`).  The loop over `enumerate(zip(predicoes, scores))`
keeping the records with label `-1` is the filter-then-map below. -/
def analisar_cargas (scorer : Scorer) (cargas : List Carga) :
    Except String Resultado :=
  if cargas.length < 3 then .ok avisoResultado
  else do
    let valores ← extrair_valores cargas
    let estatisticas := calcular_estatisticas valores
    let (predicoes, scores) ← scorer valores
    let anomalias :=
      (((cargas.zip valores).zip (predicoes.zip scores)).filter
          (fun x => x.2.1 == -1)).map
        (fun x => mk_anomalia estatisticas scores x.1.1 x.1.2 x.2.2)
    .ok { anomalias := anomalias,
          estatisticas := some estatisticas,
          total_cargas := some cargas.length,
          total_anomalias := some anomalias.length,
          percentual_anomalias :=
            some (round2 ((anomalias.length : ℚ) / (cargas.length : ℚ) * 100)),
          aviso := none, erro := none, comparacao_historico := none }

/-- The anomaly dict appended by
`DetectorAnomaliasPorCliente.analisar_com_historico` of
`detector_anomalias.py`: it writes neither a `chassis` nor a
`score_anomalia` key. -/
def hist_anomalia (hs : HistStats) (c : Carga) (valor : ℚ) : Anomalia :=
  { id := c.id,
    veiculo := c.veiculo,
    chassis := none,
    valor := valor,
    tipo := .FORA_DO_HISTORICO,
    severidade := 90,
    score_anomalia := none,
    sugestao := "Valor ¥" ++ fmtComma valor ++
      " é 2x maior que máximo histórico (¥" ++ fmtComma hs.max_historico ++ ")",
    valor_esperado := hs.media_historica }

/-- One iteration of the `for carga in cargas_atuais` loop of
`analisar_com_historico`: coerce the value (which can raise), and append a
`FORA_DO_HISTORICO` anomaly when the value exceeds twice the historical
maximum and no anomaly with the record's id is present yet. -/
def hist_step (hs : HistStats) (acc : List Anomalia) (c : Carga) :
    Except String (List Anomalia) := do
  let valor ← floatOf c.valorRaw
  if hs.max_historico * 2 < valor then
    if acc.any (fun a => a.id == c.id) then .ok acc
    else .ok (acc ++ [hist_anomalia hs c valor])
  else .ok acc

/-- The `stats_historico` dict computed from the historical value vector
(`np.mean`, `np.median`, `np.max`, `np.min` of `valores_historicos`). -/
def histStatsOf (valores_historicos : List ℚ) : HistStats :=
  { media_historica := npMean valores_historicos,
    mediana_historica := percentile valores_historicos 50,
    max_historico := npMax valores_historicos,
    min_historico := npMin valores_historicos }

/-- The body of the `if historico_cliente and len(historico_cliente) >= 10`
branch of `analisar_com_historico`: extract the historical values (which
can raise), run the comparison loop over the current records, and attach
the historical summary.  (The source writes this inline; it is factored
out here, with the local `stats_historico` inlined through
`histStatsOf`.) -/
def hist_branch (cargas_atuais : List Carga) (resultado_atual : Resultado)
    (historico : List Carga) : Except String Resultado := do
  let valores_historicos ← extrair_valores historico
  let anomalias ← cargas_atuais.foldlM
    (hist_step (histStatsOf valores_historicos)) resultado_atual.anomalias
  .ok { resultado_atual with
        anomalias := anomalias,
        comparacao_historico := some (histStatsOf valores_historicos) }

/-- `DetectorAnomaliasPorCliente.analisar_com_historico` of
`detector_anomalias.py`.  `historico = none` is a `None` argument; the
Python guard `if historico_cliente and len(historico_cliente) >= 10` skips
the augmentation for `None`, `[]`, and any history shorter than 10. -/
def analisar_com_historico (scorer : Scorer) (cargas_atuais : List Carga)
    (historico_cliente : Option (List Carga)) : Except String Resultado := do
  let resultado_atual ← analisar_cargas scorer cargas_atuais
  match historico_cliente with
  | none => .ok resultado_atual
  | some historico =>
    if historico.length < 10 then .ok resultado_atual
    else hist_branch cargas_atuais resultado_atual historico

end Det

namespace App

/-- `DetectorAnomalias._calcular_estatisticas` of `app.py`: every entry is
truncated to an `int`. -/
def calcular_estatisticas (valores : List ℚ) : Estatisticas :=
  { media := (pyTrunc (npMean valores) : ℚ),
    mediana := (pyTrunc (percentile valores 50) : ℚ),
    minimo := (pyTrunc (npMin valores) : ℚ),
    maximo := (pyTrunc (npMax valores) : ℚ),
    q1 := (pyTrunc (percentile valores 25) : ℚ),
    q3 := (pyTrunc (percentile valores 75) : ℚ),
    iqr := (pyTrunc (percentile valores 75 - percentile valores 25) : ℚ) }

/-- `DetectorAnomalias._gerar_sugestao` of `app.py` (every template names
the currency). -/
def gerar_sugestao (valor : ℚ) (stats : Estatisticas) (tipo : TipoAnomalia) : String :=
  match tipo with
  | .MUITO_ALTO =>
      "Valor ¥" ++ fmtComma valor ++ " está muito acima da média (¥" ++
        fmtComma stats.media ++ "). Verifique se não há zeros extras."
  | .ALTO =>
      "Valor ¥" ++ fmtComma valor ++ " está acima do esperado (¥" ++
        fmtComma stats.mediana ++ "). Confirme se está correto."
  | .MUITO_BAIXO =>
      "Valor ¥" ++ fmtComma valor ++ " está muito abaixo da média (¥" ++
        fmtComma stats.media ++ "). Verifique se não faltam dígitos."
  | .BAIXO =>
      "Valor ¥" ++ fmtComma valor ++ " está abaixo do esperado (¥" ++
        fmtComma stats.mediana ++ "). Confirme se está correto."
  | .OUTLIER =>
      "Valor ¥" ++ fmtComma valor ++ " é incomum. Valor típico é ¥" ++
        fmtComma stats.mediana ++ "."
  | _ => "Verifique este valor."

/-- The anomaly dict appended for a flagged record in
`DetectorAnomalias.analisar_cargas` of `app.py`: descriptors default to
`'N/A'` and the expected value is truncated to an `int`. -/
def mk_anomalia (est : Estatisticas) (scores : List ℚ) (c : Carga)
    (valor : ℚ) (score : ℚ) : Anomalia :=
  { id := c.id,
    veiculo := some (c.veiculo.getD "N/A"),
    chassis := some (some (c.chassis.getD "N/A")),
    valor := valor,
    tipo := classificar_anomalia valor est,
    severidade := calcular_severidade score scores,
    score_anomalia := some score,
    sugestao := gerar_sugestao valor est (classificar_anomalia valor est),
    valor_esperado := (pyTrunc est.mediana : ℚ) }

/-- The body of the `try` block of `DetectorAnomalias.analisar_cargas` of
`app.py` (everything after the size guard). -/
def analisar_cargas_core (scorer : Scorer) (cargas : List Carga) :
    Except String Resultado := do
  let valores ← extrair_valores cargas
  let estatisticas := calcular_estatisticas valores
  let (predicoes, scores) ← scorer valores
  let anomalias :=
    (((cargas.zip valores).zip (predicoes.zip scores)).filter
        (fun x => x.2.1 == -1)).map
      (fun x => mk_anomalia estatisticas scores x.1.1 x.1.2 x.2.2)
  .ok { anomalias := anomalias,
        estatisticas := some estatisticas,
        total_cargas := some cargas.length,
        total_anomalias := some anomalias.length,
        percentual_anomalias :=
          some (round2 ((anomalias.length : ℚ) / (cargas.length : ℚ) * 100)),
        aviso := none, erro := none, comparacao_historico := none }

/-- `DetectorAnomalias.analisar_cargas` of `app.py`: the size guard sits
outside the `try`; any exception inside the `try` is caught and converted
to a result whose `erro` entry is the exception message. -/
def analisar_cargas (scorer : Scorer) (cargas : List Carga) : Resultado :=
  if cargas.length < 3 then avisoResultado
  else
    match analisar_cargas_core scorer cargas with
    | .ok r => r
    | .error e =>
      { anomalias := [], estatisticas := none, total_cargas := none,
        total_anomalias := none, percentual_anomalias := none,
        aviso := none, erro := some e, comparacao_historico := none }

/-- The `stats_historico` dict of
`DetectorAnomaliasPorCliente.analisar_com_historico` of `app.py`: every
entry is truncated to an `int` (lines 178–182). -/
def histStatsOf (valores_historicos : List ℚ) : HistStats :=
  { media_historica := (pyTrunc (npMean valores_historicos) : ℚ),
    mediana_historica := (pyTrunc (percentile valores_historicos 50) : ℚ),
    max_historico := (pyTrunc (npMax valores_historicos) : ℚ),
    min_historico := (pyTrunc (npMin valores_historicos) : ℚ) }

/-- The anomaly dict appended by `analisar_com_historico` of `app.py`
(lines 196–204): like the `detector_anomalias.py` one it writes neither a
`chassis` nor a `score_anomalia` key, but the vehicle descriptor defaults
to `'N/A'`. -/
def hist_anomalia (hs : HistStats) (c : Carga) (valor : ℚ) : Anomalia :=
  { id := c.id,
    veiculo := some (c.veiculo.getD "N/A"),
    chassis := none,
    valor := valor,
    tipo := .FORA_DO_HISTORICO,
    severidade := 90,
    score_anomalia := none,
    sugestao := "Valor ¥" ++ fmtComma valor ++
      " é 2x maior que máximo histórico (¥" ++ fmtComma hs.max_historico ++ ")",
    valor_esperado := hs.media_historica }

/-- One iteration of the `for carga in cargas_atuais` loop of
`analisar_com_historico` of `app.py`: coerce the value (which can raise),
and append a `FORA_DO_HISTORICO` anomaly when the value exceeds twice the
(truncated) historical maximum and no anomaly with the record's id is
present yet. -/
def hist_step (hs : HistStats) (acc : List Anomalia) (c : Carga) :
    Except String (List Anomalia) := do
  let valor ← floatOf c.valorRaw
  if hs.max_historico * 2 < valor then
    if acc.any (fun a => a.id == c.id) then .ok acc
    else .ok (acc ++ [hist_anomalia hs c valor])
  else .ok acc

/-- The comparison loop of `analisar_com_historico` of `app.py`, run under
the surrounding `try`/`except`.  The loop mutates
`resultado_atual['anomalias']` in place, so an exception at some record
(caught and logged by the `except`) leaves the anomalies appended so far
in the result and skips the `comparacao_historico` assignment, which the
source performs only after the loop completes. -/
def hist_loop_caught (hs : HistStats) (resultado : Resultado) :
    List Anomalia → List Carga → Resultado
  | acc, [] =>
    { resultado with anomalias := acc, comparacao_historico := some hs }
  | acc, c :: cs =>
    match hist_step hs acc c with
    | .error _ => { resultado with anomalias := acc }
    | .ok acc2 => hist_loop_caught hs resultado acc2 cs

/-- The body of the `if historico_cliente and len(historico_cliente) >= 10`
branch of `analisar_com_historico` of `app.py` (inside the `try`): a
failure while extracting the historical values is caught before any
mutation, returning the baseline result unchanged. -/
def hist_branch_caught (cargas_atuais : List Carga)
    (resultado_atual : Resultado) (historico : List Carga) : Resultado :=
  match extrair_valores historico with
  | .error _ => resultado_atual
  | .ok valores_historicos =>
      hist_loop_caught (histStatsOf valores_historicos) resultado_atual
        resultado_atual.anomalias cargas_atuais

/-- `DetectorAnomaliasPorCliente.analisar_com_historico` of `app.py`
(lines 164–211).  As in `detector_anomalias.py`, `None`, `[]` and any
history shorter than 10 skip the augmentation; unlike it, the whole
augmentation block sits in a `try`/`except` that logs and falls through
to returning the (possibly partially mutated) result. -/
def analisar_com_historico (scorer : Scorer) (cargas_atuais : List Carga)
    (historico_cliente : Option (List Carga)) : Resultado :=
  let resultado_atual := analisar_cargas scorer cargas_atuais
  match historico_cliente with
  | none => resultado_atual
  | some historico =>
    if historico.length < 10 then resultado_atual
    else hist_branch_caught cargas_atuais resultado_atual historico

end App

/-! ### Elementary facts about the numeric helpers -/

theorem foldl_min_le_init (t : List ℚ) : ∀ a : ℚ, t.foldl min a ≤ a := by
  induction t with
  | nil => intro a; simp
  | cons x xs ih =>
    intro a
    calc (x :: xs).foldl min a = xs.foldl min (min a x) := rfl
      _ ≤ min a x := ih _
      _ ≤ a := min_le_left _ _

theorem foldl_min_le_mem (t : List ℚ) : ∀ (a y : ℚ), y ∈ t → t.foldl min a ≤ y := by
  induction t with
  | nil => intro a y hy; simp at hy
  | cons x xs ih =>
    intro a y hy
    rcases List.mem_cons.mp hy with h | h
    · subst h
      calc (y :: xs).foldl min a = xs.foldl min (min a y) := rfl
        _ ≤ min a y := foldl_min_le_init _ _
        _ ≤ y := min_le_right _ _
    · exact ih _ _ h

theorem init_le_foldl_max (t : List ℚ) : ∀ a : ℚ, a ≤ t.foldl max a := by
  induction t with
  | nil => intro a; simp
  | cons x xs ih =>
    intro a
    calc a ≤ max a x := le_max_left _ _
      _ ≤ xs.foldl max (max a x) := ih _
      _ = (x :: xs).foldl max a := rfl

theorem mem_le_foldl_max (t : List ℚ) : ∀ (a y : ℚ), y ∈ t → y ≤ t.foldl max a := by
  induction t with
  | nil => intro a y hy; simp at hy
  | cons x xs ih =>
    intro a y hy
    rcases List.mem_cons.mp hy with h | h
    · subst h
      calc y ≤ max a y := le_max_right _ _
        _ ≤ xs.foldl max (max a y) := init_le_foldl_max _ _
        _ = (y :: xs).foldl max a := rfl
    · exact ih _ _ h

theorem npMin_le {xs : List ℚ} {y : ℚ} (hy : y ∈ xs) : npMin xs ≤ y := by
  cases xs with
  | nil => simp at hy
  | cons x t =>
    rcases List.mem_cons.mp hy with h | h
    · subst h; exact foldl_min_le_init t y
    · exact foldl_min_le_mem t x y h

theorem le_npMax {xs : List ℚ} {y : ℚ} (hy : y ∈ xs) : y ≤ npMax xs := by
  cases xs with
  | nil => simp at hy
  | cons x t =>
    rcases List.mem_cons.mp hy with h | h
    · subst h; exact init_le_foldl_max t y
    · exact mem_le_foldl_max t x y h

theorem pyTrunc_nonneg {q : ℚ} (h : 0 ≤ q) : 0 ≤ pyTrunc q := by
  simp only [pyTrunc, if_pos h]
  exact Int.floor_nonneg.mpr h

theorem pyTrunc_mono {a b : ℚ} (h : a ≤ b) : pyTrunc a ≤ pyTrunc b := by
  unfold pyTrunc
  by_cases ha : 0 ≤ a <;> by_cases hb : 0 ≤ b
  · rw [if_pos ha, if_pos hb]; exact Int.floor_mono h
  · exact absurd (le_trans ha h) hb
  · rw [if_neg ha, if_pos hb]
    have h1 : ⌈a⌉ ≤ 0 := Int.ceil_le.mpr (by exact_mod_cast le_of_not_le ha)
    have h2 : 0 ≤ ⌊b⌋ := Int.floor_nonneg.mpr hb
    omega
  · rw [if_neg ha, if_neg hb]; exact Int.ceil_mono h

theorem pyTrunc_intCast (n : ℤ) : pyTrunc (n : ℚ) = n := by
  unfold pyTrunc
  split_ifs
  · exact Int.floor_intCast n
  · exact Int.ceil_intCast n

/-! ### Order facts about the percentile machinery -/

theorem sortVals_sorted (xs : List ℚ) : (sortVals xs).Sorted (· ≤ ·) :=
  List.sorted_insertionSort _ xs

theorem sortVals_perm (xs : List ℚ) : (sortVals xs).Perm xs :=
  List.perm_insertionSort _ xs

theorem sortVals_ne_nil {xs : List ℚ} (h : xs ≠ []) : sortVals xs ≠ [] := by
  intro hc
  exact h (((hc ▸ sortVals_perm xs : ([] : List ℚ).Perm xs)).symm.eq_nil)

theorem nthC_mem {s : List ℚ} (h : s ≠ []) (i : ℕ) : nthC s i ∈ s := by
  have hlen : 0 < s.length := List.length_pos.mpr h
  have hlt : min i (s.length - 1) < s.length := by omega
  rw [nthC, List.getD_eq_get s 0 hlt]
  exact List.get_mem _ _ _

theorem nthC_mono {s : List ℚ} (hs : s.Sorted (· ≤ ·)) {i j : ℕ} (hij : i ≤ j) :
    nthC s i ≤ nthC s j := by
  cases s with
  | nil => simp [nthC]
  | cons x t =>
    have hlen : 0 < (x :: t).length := by simp
    have hi : min i ((x :: t).length - 1) < (x :: t).length := by omega
    have hj : min j ((x :: t).length - 1) < (x :: t).length := by omega
    rw [nthC, nthC, List.getD_eq_get _ 0 hi, List.getD_eq_get _ 0 hj]
    exact hs.rel_get_of_le (by simp [Fin.le_def]; omega)

theorem frac_nonneg (h : ℚ) : 0 ≤ h - (⌊h⌋ : ℚ) := by
  have := Int.floor_le h; linarith

theorem frac_lt_one (h : ℚ) : h - (⌊h⌋ : ℚ) < 1 := by
  have := Int.lt_floor_add_one h; linarith

theorem interpAt_ge {s : List ℚ} (hs : s.Sorted (· ≤ ·)) (h : ℚ) :
    nthC s ⌊h⌋.toNat ≤ interpAt s h := by
  have hd : nthC s ⌊h⌋.toNat ≤ nthC s (⌊h⌋.toNat + 1) := nthC_mono hs (by omega)
  exact le_add_of_nonneg_right (mul_nonneg (frac_nonneg h) (sub_nonneg.mpr hd))

theorem interpAt_le {s : List ℚ} (hs : s.Sorted (· ≤ ·)) (h : ℚ) :
    interpAt s h ≤ nthC s (⌊h⌋.toNat + 1) := by
  have hd : nthC s ⌊h⌋.toNat ≤ nthC s (⌊h⌋.toNat + 1) := nthC_mono hs (by omega)
  have hb : (h - (⌊h⌋ : ℚ)) * (nthC s (⌊h⌋.toNat + 1) - nthC s ⌊h⌋.toNat) ≤
      nthC s (⌊h⌋.toNat + 1) - nthC s ⌊h⌋.toNat :=
    mul_le_of_le_one_left (sub_nonneg.mpr hd) (frac_lt_one h).le
  unfold interpAt
  linarith

theorem interpAt_mono {s : List ℚ} (hs : s.Sorted (· ≤ ·)) {h₁ h₂ : ℚ}
    (h0 : 0 ≤ h₁) (h12 : h₁ ≤ h₂) : interpAt s h₁ ≤ interpAt s h₂ := by
  rcases eq_or_lt_of_le (Int.floor_mono h12 : ⌊h₁⌋ ≤ ⌊h₂⌋) with hf | hf
  · have hd : nthC s ⌊h₁⌋.toNat ≤ nthC s (⌊h₁⌋.toNat + 1) := nthC_mono hs (by omega)
    have hm : (h₁ - (⌊h₁⌋ : ℚ)) * (nthC s (⌊h₁⌋.toNat + 1) - nthC s ⌊h₁⌋.toNat) ≤
        (h₂ - (⌊h₁⌋ : ℚ)) * (nthC s (⌊h₁⌋.toNat + 1) - nthC s ⌊h₁⌋.toNat) :=
      mul_le_mul_of_nonneg_right (by linarith) (sub_nonneg.mpr hd)
    unfold interpAt
    rw [← hf]
    linarith
  · have hnn : 0 ≤ ⌊h₁⌋ := Int.floor_nonneg.mpr h0
    have ht : ⌊h₁⌋.toNat + 1 ≤ ⌊h₂⌋.toNat := by omega
    calc interpAt s h₁ ≤ nthC s (⌊h₁⌋.toNat + 1) := interpAt_le hs h₁
      _ ≤ nthC s ⌊h₂⌋.toNat := nthC_mono hs ht
      _ ≤ interpAt s h₂ := interpAt_ge hs h₂

theorem percentile_mono {xs : List ℚ} (hne : xs ≠ []) {p₁ p₂ : ℚ}
    (hp : 0 ≤ p₁) (h12 : p₁ ≤ p₂) : percentile xs p₁ ≤ percentile xs p₂ := by
  have hn : (1 : ℚ) ≤ (xs.length : ℚ) := by
    exact_mod_cast List.length_pos.mpr hne
  have hnn : (0 : ℚ) ≤ (xs.length : ℚ) - 1 := by linarith
  unfold percentile
  apply interpAt_mono (sortVals_sorted xs)
  · exact mul_nonneg (div_nonneg hp (by norm_num)) hnn
  · exact mul_le_mul_of_nonneg_right ((div_le_div_right (by norm_num)).mpr h12) hnn

theorem npMin_le_percentile {xs : List ℚ} (hne : xs ≠ []) (p : ℚ) :
    npMin xs ≤ percentile xs p := by
  have hsne := sortVals_ne_nil hne
  have hmem : nthC (sortVals xs) ⌊p / 100 * ((xs.length : ℚ) - 1)⌋.toNat ∈ xs :=
    (sortVals_perm xs).mem_iff.mp (nthC_mem hsne _)
  calc npMin xs ≤ nthC (sortVals xs) ⌊p / 100 * ((xs.length : ℚ) - 1)⌋.toNat :=
        npMin_le hmem
    _ ≤ percentile xs p := interpAt_ge (sortVals_sorted xs) _

theorem percentile_le_npMax {xs : List ℚ} (hne : xs ≠ []) (p : ℚ) :
    percentile xs p ≤ npMax xs := by
  have hsne := sortVals_ne_nil hne
  have hmem : nthC (sortVals xs) (⌊p / 100 * ((xs.length : ℚ) - 1)⌋.toNat + 1) ∈ xs :=
    (sortVals_perm xs).mem_iff.mp (nthC_mem hsne _)
  calc percentile xs p ≤
        nthC (sortVals xs) (⌊p / 100 * ((xs.length : ℚ) - 1)⌋.toNat + 1) :=
        interpAt_le (sortVals_sorted xs) _
    _ ≤ npMax xs := le_npMax hmem

/-! ### Claim C1: the anomaly classifier -/

/-- C1: on every flagged value `v` and statistics record `s` (whose `iqr`
field is `q3 - q1`, as `_calcular_estatisticas` guarantees), the
classifier returns `MUITO_ALTO` when `v > q3 + 1.5·iqr` and `v > 2·mean`,
`ALTO` when `v > q3 + 1.5·iqr` but `v ≤ 2·mean`, `MUITO_BAIXO` when
`v < q1 - 1.5·iqr` and `v < 0.5·mean`, `BAIXO` when `v < q1 - 1.5·iqr`
but `v ≥ 0.5·mean`, and `OUTLIER` otherwise; in particular a value equal
to either fence is classified `OUTLIER`.  The function is pure — its
result is determined by its two arguments alone. -/
theorem C1_classificar_cases (v : ℚ) (s : Estatisticas)
    (hiqr : s.iqr = s.q3 - s.q1) (hq : s.q1 ≤ s.q3) :
    (s.q3 + 1.5 * s.iqr < v → s.media * 2 < v →
      classificar_anomalia v s = .MUITO_ALTO) ∧
    (s.q3 + 1.5 * s.iqr < v → ¬ s.media * 2 < v →
      classificar_anomalia v s = .ALTO) ∧
    (v < s.q1 - 1.5 * s.iqr → v < s.media * 0.5 →
      classificar_anomalia v s = .MUITO_BAIXO) ∧
    (v < s.q1 - 1.5 * s.iqr → ¬ v < s.media * 0.5 →
      classificar_anomalia v s = .BAIXO) ∧
    (¬ s.q3 + 1.5 * s.iqr < v → ¬ v < s.q1 - 1.5 * s.iqr →
      classificar_anomalia v s = .OUTLIER) ∧
    (v = s.q3 + 1.5 * s.iqr → classificar_anomalia v s = .OUTLIER) ∧
    (v = s.q1 - 1.5 * s.iqr → classificar_anomalia v s = .OUTLIER) := by
  have hfences : s.q1 - 1.5 * s.iqr ≤ s.q3 + 1.5 * s.iqr := by
    rw [hiqr]; nlinarith [hq]
  unfold classificar_anomalia
  refine ⟨?_, ?_, ?_, ?_, ?_, ?_, ?_⟩
  · intro h1 h2; rw [if_pos h1, if_pos h2]
  · intro h1 h2; rw [if_pos h1, if_neg h2]
  · intro h1 h2
    have hna : ¬ s.q3 + 1.5 * s.iqr < v := by
      intro hc; exact absurd (lt_of_le_of_lt hfences hc) (lt_asymm h1)
    rw [if_neg hna, if_pos h1, if_pos h2]
  · intro h1 h2
    have hna : ¬ s.q3 + 1.5 * s.iqr < v := by
      intro hc; exact absurd (lt_of_le_of_lt hfences hc) (lt_asymm h1)
    rw [if_neg hna, if_pos h1, if_neg h2]
  · intro h1 h2; rw [if_neg h1, if_neg h2]
  · intro h1
    have hna : ¬ s.q3 + 1.5 * s.iqr < v := by rw [h1]; exact lt_irrefl _
    have hnb : ¬ v < s.q1 - 1.5 * s.iqr := by rw [h1]; exact not_lt.mpr hfences
    rw [if_neg hna, if_neg hnb]
  · intro h1
    have hna : ¬ s.q3 + 1.5 * s.iqr < v := by
      rw [h1]; exact not_lt.mpr hfences
    have hnb : ¬ v < s.q1 - 1.5 * s.iqr := by rw [h1]; exact lt_irrefl _
    rw [if_neg hna, if_neg hnb]

/-- Witness for C1 at a concrete input: statistics with mean 10,
Q1 = 5, Q3 = 15, IQR = 10. -/
theorem C1_classificar_cases_witness :
    ((⟨10, 10, 0, 20, 5, 15, 10⟩ : Estatisticas).q3 +
        1.5 * (⟨10, 10, 0, 20, 5, 15, 10⟩ : Estatisticas).iqr < 100 →
      (⟨10, 10, 0, 20, 5, 15, 10⟩ : Estatisticas).media * 2 < 100 →
      classificar_anomalia 100 ⟨10, 10, 0, 20, 5, 15, 10⟩ = .MUITO_ALTO) ∧
    ((⟨10, 10, 0, 20, 5, 15, 10⟩ : Estatisticas).q3 +
        1.5 * (⟨10, 10, 0, 20, 5, 15, 10⟩ : Estatisticas).iqr < 100 →
      ¬ (⟨10, 10, 0, 20, 5, 15, 10⟩ : Estatisticas).media * 2 < 100 →
      classificar_anomalia 100 ⟨10, 10, 0, 20, 5, 15, 10⟩ = .ALTO) ∧
    (100 < (⟨10, 10, 0, 20, 5, 15, 10⟩ : Estatisticas).q1 -
        1.5 * (⟨10, 10, 0, 20, 5, 15, 10⟩ : Estatisticas).iqr →
      (100 : ℚ) < (⟨10, 10, 0, 20, 5, 15, 10⟩ : Estatisticas).media * 0.5 →
      classificar_anomalia 100 ⟨10, 10, 0, 20, 5, 15, 10⟩ = .MUITO_BAIXO) ∧
    (100 < (⟨10, 10, 0, 20, 5, 15, 10⟩ : Estatisticas).q1 -
        1.5 * (⟨10, 10, 0, 20, 5, 15, 10⟩ : Estatisticas).iqr →
      ¬ (100 : ℚ) < (⟨10, 10, 0, 20, 5, 15, 10⟩ : Estatisticas).media * 0.5 →
      classificar_anomalia 100 ⟨10, 10, 0, 20, 5, 15, 10⟩ = .BAIXO) ∧
    (¬ (⟨10, 10, 0, 20, 5, 15, 10⟩ : Estatisticas).q3 +
        1.5 * (⟨10, 10, 0, 20, 5, 15, 10⟩ : Estatisticas).iqr < 100 →
      ¬ (100 : ℚ) < (⟨10, 10, 0, 20, 5, 15, 10⟩ : Estatisticas).q1 -
        1.5 * (⟨10, 10, 0, 20, 5, 15, 10⟩ : Estatisticas).iqr →
      classificar_anomalia 100 ⟨10, 10, 0, 20, 5, 15, 10⟩ = .OUTLIER) ∧
    ((100 : ℚ) = (⟨10, 10, 0, 20, 5, 15, 10⟩ : Estatisticas).q3 +
        1.5 * (⟨10, 10, 0, 20, 5, 15, 10⟩ : Estatisticas).iqr →
      classificar_anomalia 100 ⟨10, 10, 0, 20, 5, 15, 10⟩ = .OUTLIER) ∧
    ((100 : ℚ) = (⟨10, 10, 0, 20, 5, 15, 10⟩ : Estatisticas).q1 -
        1.5 * (⟨10, 10, 0, 20, 5, 15, 10⟩ : Estatisticas).iqr →
      classificar_anomalia 100 ⟨10, 10, 0, 20, 5, 15, 10⟩ = .OUTLIER) :=
  C1_classificar_cases 100 ⟨10, 10, 0, 20, 5, 15, 10⟩ (by norm_num) (by norm_num)

/-! ### Claim C2: the severity normalizer -/

/-- Counterexample to C2 as stated: for a raw score that does not belong
to the batch vector, the normalizer's result can leave `[0, 100]` — at
score `2` against the batch `[0, 1]` it returns `-100`. -/
theorem C2_severidade_counterexample :
    ¬ (0 ≤ calcular_severidade 2 [0, 1] ∧
        calcular_severidade 2 [0, 1] ≤ 100) := by
  have h1 : npMin [(0 : ℚ), 1] = 0 := by
    norm_num [npMin, min_def]
  have h2 : npMax [(0 : ℚ), 1] = 1 := by
    norm_num [npMax, max_def]
  have h3 : calcular_severidade 2 [0, 1] = -100 := by
    unfold calcular_severidade
    rw [h1, h2, if_neg (by norm_num)]
    rw [show (100 - ((2 : ℚ) - 0) / (1 - 0) * 100) = ((-100 : ℤ) : ℚ) by norm_num]
    rw [pyTrunc_intCast]
  rw [h3]
  rintro ⟨hc, -⟩
  norm_num at hc

/-- C2 amended: for every batch score vector and every raw score that is a
member of it, the severity is an integer in `[0, 100]`; it equals the
normalization formula truncated to an integer when the batch scores are
not all equal, and it is exactly `50` when the batch maximum equals the
batch minimum. -/
theorem C2_severidade_amended (score : ℚ) (todos : List ℚ)
    (hmem : score ∈ todos) :
    (0 ≤ calcular_severidade score todos ∧
      calcular_severidade score todos ≤ 100) ∧
    (npMax todos = npMin todos → calcular_severidade score todos = 50) ∧
    (npMax todos ≠ npMin todos →
      calcular_severidade score todos =
        pyTrunc (100 - (score - npMin todos) /
          (npMax todos - npMin todos) * 100)) := by
  have hmn : npMin todos ≤ score := npMin_le hmem
  have hmx : score ≤ npMax todos := le_npMax hmem
  by_cases heq : npMax todos = npMin todos
  · have h50 : calcular_severidade score todos = 50 := by
      unfold calcular_severidade; rw [if_pos heq]
    refine ⟨⟨?_, ?_⟩, fun _ => h50, fun hne => absurd heq hne⟩ <;>
      rw [h50] <;> norm_num
  · have hlt : npMin todos < npMax todos :=
      lt_of_le_of_ne (le_trans hmn hmx) fun hc => heq hc.symm
    have hform : calcular_severidade score todos =
        pyTrunc (100 - (score - npMin todos) /
          (npMax todos - npMin todos) * 100) := by
      unfold calcular_severidade; rw [if_neg heq]
    have ht0 : 0 ≤ (score - npMin todos) / (npMax todos - npMin todos) :=
      div_nonneg (by linarith) (by linarith)
    have ht1 : (score - npMin todos) / (npMax todos - npMin todos) ≤ 1 :=
      (div_le_one (by linarith)).mpr (by linarith)
    have hlow : (0 : ℚ) ≤ 100 - (score - npMin todos) /
        (npMax todos - npMin todos) * 100 := by nlinarith
    have hhigh : 100 - (score - npMin todos) /
        (npMax todos - npMin todos) * 100 ≤ ((100 : ℤ) : ℚ) := by
      push_cast; nlinarith
    refine ⟨⟨?_, ?_⟩, fun hc => absurd hc heq, fun _ => hform⟩
    · rw [hform]; exact pyTrunc_nonneg hlow
    · rw [hform]
      calc pyTrunc (100 - (score - npMin todos) /
            (npMax todos - npMin todos) * 100) ≤ pyTrunc ((100 : ℤ) : ℚ) :=
            pyTrunc_mono hhigh
        _ = 100 := pyTrunc_intCast 100

/-- Witness for the amended C2 at score `1` in the batch `[0, 1]`. -/
theorem C2_severidade_amended_witness :
    (0 ≤ calcular_severidade 1 [0, 1] ∧ calcular_severidade 1 [0, 1] ≤ 100) ∧
    (npMax [0, 1] = npMin [0, 1] → calcular_severidade 1 [0, 1] = 50) ∧
    (npMax [0, 1] ≠ npMin [0, 1] →
      calcular_severidade 1 [0, 1] =
        pyTrunc (100 - ((1 : ℚ) - npMin [0, 1]) /
          (npMax [0, 1] - npMin [0, 1]) * 100)) :=
  C2_severidade_amended 1 [0, 1] (by simp)

/-! ### Claim C5: invariants of the statistics summary -/

/-- Counterexample to C5 as stated: in the `app.py` implementation, on the
value vector `[0, 3, 5]` the truncated IQR entry is `int(4 − 1.5) = 2`
while the truncated Q3 entry minus the truncated Q1 entry is
`4 − 1 = 3`, so the IQR field differs from Q3 − Q1. -/
theorem C5_app_iqr_counterexample :
    (App.calcular_estatisticas [0, 3, 5]).iqr ≠
      (App.calcular_estatisticas [0, 3, 5]).q3 -
        (App.calcular_estatisticas [0, 3, 5]).q1 := by
  have hsort : sortVals [(0 : ℚ), 3, 5] = [0, 3, 5] := by decide
  have h25 : percentile [(0 : ℚ), 3, 5] 25 = 3 / 2 := by
    unfold percentile
    rw [hsort]
    norm_num [interpAt, nthC]
  have h75 : percentile [(0 : ℚ), 3, 5] 75 = 4 := by
    unfold percentile
    rw [hsort]
    norm_num [interpAt, nthC]
  have e1 : (App.calcular_estatisticas [0, 3, 5]).iqr = 2 := by
    show (↑(pyTrunc (percentile [0, 3, 5] 75 - percentile [0, 3, 5] 25)) : ℚ) = 2
    rw [h25, h75, show (4 : ℚ) - 3 / 2 = 5 / 2 by norm_num]
    unfold pyTrunc
    rw [if_pos (by norm_num)]
    norm_num
  have e2 : (App.calcular_estatisticas [0, 3, 5]).q3 = 4 := by
    show (↑(pyTrunc (percentile [0, 3, 5] 75)) : ℚ) = 4
    rw [h75, show (4 : ℚ) = ((4 : ℤ) : ℚ) by norm_num, pyTrunc_intCast]
  have e3 : (App.calcular_estatisticas [0, 3, 5]).q1 = 1 := by
    show (↑(pyTrunc (percentile [0, 3, 5] 25)) : ℚ) = 1
    rw [h25]
    unfold pyTrunc
    rw [if_pos (by norm_num)]
    norm_num
  rw [e1, e2, e3]
  norm_num

/-- C5 amended: for every non-empty value vector, the statistics of both
implementations satisfy `min ≤ Q1 ≤ median ≤ Q3 ≤ max` and `IQR ≥ 0`; in
`detector_anomalias.py` the IQR field moreover equals the Q3 field minus
the Q1 field, while in `app.py` the IQR field is the truncation of the
exact Q3 − Q1 (which can differ from the truncated Q3 minus the truncated
Q1). -/
theorem C5_statistics_amended (xs : List ℚ) (hne : xs ≠ []) :
    ((Det.calcular_estatisticas xs).minimo ≤ (Det.calcular_estatisticas xs).q1 ∧
     (Det.calcular_estatisticas xs).q1 ≤ (Det.calcular_estatisticas xs).mediana ∧
     (Det.calcular_estatisticas xs).mediana ≤ (Det.calcular_estatisticas xs).q3 ∧
     (Det.calcular_estatisticas xs).q3 ≤ (Det.calcular_estatisticas xs).maximo ∧
     (Det.calcular_estatisticas xs).iqr =
       (Det.calcular_estatisticas xs).q3 - (Det.calcular_estatisticas xs).q1 ∧
     0 ≤ (Det.calcular_estatisticas xs).iqr) ∧
    ((App.calcular_estatisticas xs).minimo ≤ (App.calcular_estatisticas xs).q1 ∧
     (App.calcular_estatisticas xs).q1 ≤ (App.calcular_estatisticas xs).mediana ∧
     (App.calcular_estatisticas xs).mediana ≤ (App.calcular_estatisticas xs).q3 ∧
     (App.calcular_estatisticas xs).q3 ≤ (App.calcular_estatisticas xs).maximo ∧
     0 ≤ (App.calcular_estatisticas xs).iqr ∧
     (App.calcular_estatisticas xs).iqr =
       ((pyTrunc ((Det.calcular_estatisticas xs).q3 -
          (Det.calcular_estatisticas xs).q1) : ℤ) : ℚ)) := by
  have h2550 : percentile xs 25 ≤ percentile xs 50 :=
    percentile_mono hne (by norm_num) (by norm_num)
  have h5075 : percentile xs 50 ≤ percentile xs 75 :=
    percentile_mono hne (by norm_num) (by norm_num)
  have h2575 : percentile xs 25 ≤ percentile xs 75 :=
    le_trans h2550 h5075
  refine ⟨⟨?_, ?_, ?_, ?_, ?_, ?_⟩, ⟨?_, ?_, ?_, ?_, ?_, ?_⟩⟩
  · exact npMin_le_percentile hne 25
  · exact h2550
  · exact h5075
  · exact percentile_le_npMax hne 75
  · rfl
  · exact sub_nonneg.mpr h2575
  · show ((pyTrunc (npMin xs) : ℤ) : ℚ) ≤ ((pyTrunc (percentile xs 25) : ℤ) : ℚ)
    exact_mod_cast pyTrunc_mono (npMin_le_percentile hne 25)
  · show ((pyTrunc (percentile xs 25) : ℤ) : ℚ) ≤ ((pyTrunc (percentile xs 50) : ℤ) : ℚ)
    exact_mod_cast pyTrunc_mono h2550
  · show ((pyTrunc (percentile xs 50) : ℤ) : ℚ) ≤ ((pyTrunc (percentile xs 75) : ℤ) : ℚ)
    exact_mod_cast pyTrunc_mono h5075
  · show ((pyTrunc (percentile xs 75) : ℤ) : ℚ) ≤ ((pyTrunc (npMax xs) : ℤ) : ℚ)
    exact_mod_cast pyTrunc_mono (percentile_le_npMax hne 75)
  · show (0 : ℚ) ≤ ((pyTrunc (percentile xs 75 - percentile xs 25) : ℤ) : ℚ)
    exact_mod_cast pyTrunc_nonneg (sub_nonneg.mpr h2575)
  · rfl

/-- Witness for the amended C5 at the vector `[0, 3, 5]`. -/
theorem C5_statistics_amended_witness :
    (((Det.calcular_estatisticas [0, 3, 5]).minimo ≤
        (Det.calcular_estatisticas [0, 3, 5]).q1 ∧
      (Det.calcular_estatisticas [0, 3, 5]).q1 ≤
        (Det.calcular_estatisticas [0, 3, 5]).mediana ∧
      (Det.calcular_estatisticas [0, 3, 5]).mediana ≤
        (Det.calcular_estatisticas [0, 3, 5]).q3 ∧
      (Det.calcular_estatisticas [0, 3, 5]).q3 ≤
        (Det.calcular_estatisticas [0, 3, 5]).maximo ∧
      (Det.calcular_estatisticas [0, 3, 5]).iqr =
        (Det.calcular_estatisticas [0, 3, 5]).q3 -
          (Det.calcular_estatisticas [0, 3, 5]).q1 ∧
      0 ≤ (Det.calcular_estatisticas [0, 3, 5]).iqr) ∧
     ((App.calcular_estatisticas [0, 3, 5]).minimo ≤
        (App.calcular_estatisticas [0, 3, 5]).q1 ∧
      (App.calcular_estatisticas [0, 3, 5]).q1 ≤
        (App.calcular_estatisticas [0, 3, 5]).mediana ∧
      (App.calcular_estatisticas [0, 3, 5]).mediana ≤
        (App.calcular_estatisticas [0, 3, 5]).q3 ∧
      (App.calcular_estatisticas [0, 3, 5]).q3 ≤
        (App.calcular_estatisticas [0, 3, 5]).maximo ∧
      0 ≤ (App.calcular_estatisticas [0, 3, 5]).iqr ∧
      (App.calcular_estatisticas [0, 3, 5]).iqr =
        ((pyTrunc ((Det.calcular_estatisticas [0, 3, 5]).q3 -
           (Det.calcular_estatisticas [0, 3, 5]).q1) : ℤ) : ℚ))) :=
  C5_statistics_amended [0, 3, 5] (by simp)

/-! ### Claims C3 and C4: the orchestrator boundary -/

theorem ok_bind {α β : Type} (a : α) (k : α → Except String β) :
    (Except.ok a >>= k) = k a := rfl

theorem error_bind {α β : Type} (e : String) (k : α → Except String β) :
    ((Except.error e : Except String α) >>= k) = Except.error e := rfl

/-- A scorer that reports no outliers and no scores (the batches it is
used on below never reach it or have no anomalies). -/
def scorerNone : Scorer := fun _ => .ok ([], [])

/-- A scorer that labels three records as inliers. -/
def scorerInliers : Scorer := fun _ => .ok ([1, 1, 1], [0, 0, 0])

/-- A record whose `CARGAS_VALOR` cannot be coerced by `float()`. -/
def cargaBad : Carga :=
  ⟨some 1, none, none, .bad "could not convert string to float: abc"⟩

/-- A 3-record batch containing one non-coercible value. -/
def cargasBad : List Carga :=
  [cargaBad, ⟨some 2, none, none, .num 1⟩, ⟨some 3, none, none, .num 2⟩]

/-- Counterexample to C3 as stated: on a 3-record batch with one
non-coercible value, `analisar_cargas` of `detector_anomalias.py` (whose
body has no `try`) propagates the `float()` exception instead of
returning a result, so that implementation is not total. -/
theorem C3_det_raises_counterexample :
    ¬ ∃ r : Resultado, Det.analisar_cargas scorerNone cargasBad = .ok r := by
  have h : Det.analisar_cargas scorerNone cargasBad =
      .error "could not convert string to float: abc" := rfl
  rintro ⟨r, hr⟩
  rw [h] at hr
  exact Except.noConfusion hr

/-- C3 amended: in the `app.py` implementation every extraction or scoring
failure is caught and surfaced as a result with empty anomalies, null
statistics and the failure reason as the error string; in the
`detector_anomalias.py` implementation the same failure propagates to the
caller (the hypothesis exhibits it as an `Except.error`). -/
theorem C3_app_catches_amended (scorer : Scorer) (cargas : List Carga)
    (e : String) (h : Det.analisar_cargas scorer cargas = .error e) :
    App.analisar_cargas scorer cargas =
      { anomalias := [], estatisticas := none, total_cargas := none,
        total_anomalias := none, percentual_anomalias := none,
        aviso := none, erro := some e, comparacao_historico := none } := by
  by_cases hlen : cargas.length < 3
  · exfalso
    have hok : Det.analisar_cargas scorer cargas = .ok avisoResultado := by
      unfold Det.analisar_cargas; rw [if_pos hlen]
    rw [hok] at h
    exact Except.noConfusion h
  · have hcore : App.analisar_cargas_core scorer cargas = .error e := by
      unfold Det.analisar_cargas at h
      rw [if_neg hlen] at h
      unfold App.analisar_cargas_core
      cases hv : extrair_valores cargas with
      | error e2 =>
        rw [hv, error_bind] at h
        rw [error_bind]
        exact h
      | ok vals =>
        rw [hv, ok_bind] at h
        rw [ok_bind]
        cases hsc : scorer vals with
        | error e2 =>
          rw [hsc, error_bind] at h
          rw [error_bind]
          exact h
        | ok ps =>
          exfalso
          obtain ⟨predicoes, scores⟩ := ps
          rw [hsc, ok_bind] at h
          simp at h
    unfold App.analisar_cargas
    rw [if_neg hlen, hcore]

/-- Witness for the amended C3 on the concrete bad batch. -/
theorem C3_app_catches_amended_witness :
    App.analisar_cargas scorerNone cargasBad =
      { anomalias := [], estatisticas := none, total_cargas := none,
        total_anomalias := none, percentual_anomalias := none,
        aviso := none, erro := some "could not convert string to float: abc",
        comparacao_historico := none } :=
  C3_app_catches_amended scorerNone cargasBad
    "could not convert string to float: abc" rfl

/-- C4: on every batch of fewer than 3 records (the empty batch included)
both implementations return the fixed result with an empty anomaly list,
null statistics and the insufficient-data warning, and the result does
not depend on the scorer — the scorer is never invoked. -/
theorem C4_insufficient_data (scorer : Scorer) (cargas : List Carga)
    (h : cargas.length < 3) :
    Det.analisar_cargas scorer cargas = .ok avisoResultado ∧
    App.analisar_cargas scorer cargas = avisoResultado ∧
    avisoResultado.anomalias = [] ∧
    avisoResultado.estatisticas = none ∧
    avisoResultado.aviso = some avisoInsuficiente ∧
    (∀ scorer₂ : Scorer,
      Det.analisar_cargas scorer cargas = Det.analisar_cargas scorer₂ cargas ∧
      App.analisar_cargas scorer cargas = App.analisar_cargas scorer₂ cargas) := by
  have hD : ∀ sc : Scorer, Det.analisar_cargas sc cargas = .ok avisoResultado := by
    intro sc; unfold Det.analisar_cargas; rw [if_pos h]
  have hA : ∀ sc : Scorer, App.analisar_cargas sc cargas = avisoResultado := by
    intro sc; unfold App.analisar_cargas; rw [if_pos h]
  exact ⟨hD scorer, hA scorer, rfl, rfl, rfl,
    fun sc => ⟨(hD scorer).trans (hD sc).symm, (hA scorer).trans (hA sc).symm⟩⟩

/-- Witness for C4 on the empty batch. -/
theorem C4_insufficient_data_witness :
    Det.analisar_cargas scorerNone [] = .ok avisoResultado ∧
    App.analisar_cargas scorerNone [] = avisoResultado ∧
    avisoResultado.anomalias = [] ∧
    avisoResultado.estatisticas = none ∧
    avisoResultado.aviso = some avisoInsuficiente ∧
    (∀ scorer₂ : Scorer,
      Det.analisar_cargas scorerNone [] = Det.analisar_cargas scorer₂ [] ∧
      App.analisar_cargas scorerNone [] = App.analisar_cargas scorer₂ []) :=
  C4_insufficient_data scorerNone [] (by norm_num)

/-! ### Claim C6: the orchestrator on a successful run -/

theorem extrair_length : ∀ {cargas : List Carga} {vals : List ℚ},
    extrair_valores cargas = .ok vals → vals.length = cargas.length := by
  intro cargas
  induction cargas with
  | nil =>
    intro vals h
    simp only [extrair_valores, List.mapM_nil] at h
    have : ([] : List ℚ) = vals := by simpa [pure, Except.pure] using h
    simp [← this]
  | cons c cs ih =>
    intro vals h
    rw [extrair_valores, List.mapM_cons] at h
    cases hf : floatOf c.valorRaw with
    | error e => rw [hf, error_bind] at h; exact absurd h (by simp)
    | ok v =>
      rw [hf, ok_bind] at h
      cases hm : List.mapM (fun c => floatOf c.valorRaw) cs with
      | error e => rw [hm, error_bind] at h; exact absurd h (by simp)
      | ok tl =>
        rw [hm, ok_bind] at h
        have hv : v :: tl = vals := by simpa [pure, Except.pure] using h
        have htl : tl.length = cs.length := ih hm
        rw [← hv]
        simp [htl]

theorem zipzip_proj {α β γ δ : Type} :
    ∀ (a : List α) (b : List β) (c : List γ) (d : List δ),
      b.length = a.length → c.length = a.length → d.length = a.length →
      ((a.zip b).zip (c.zip d)).map (fun x => (x.1.1, x.2.1)) = a.zip c := by
  intro a
  induction a with
  | nil => intro b c d h1 h2 h3; simp
  | cons x xs ih =>
    intro b c d h1 h2 h3
    cases b with
    | nil => simp at h1
    | cons y ys =>
      cases c with
      | nil => simp at h2
      | cons z zs =>
        cases d with
        | nil => simp at h3
        | cons w ws =>
          simp only [List.length_cons] at h1 h2 h3
          simp only [List.zip_cons_cons, List.map_cons, List.cons.injEq]
          exact ⟨trivial, ih ys zs ws (by omega) (by omega) (by omega)⟩

/-- A scorer that labels the first of four records an outlier. -/
def scorerC6 : Scorer := fun _ => .ok ([-1, 1, 1, 1], [0, 1, 1, 1])

/-- A 4-record batch with values `1, 2, 3, 4`, whose median `2.5` is not
an integer. -/
def cargasMed : List Carga :=
  [⟨some 1, none, none, .num 1⟩, ⟨some 2, none, none, .num 2⟩,
    ⟨some 3, none, none, .num 3⟩, ⟨some 4, none, none, .num 4⟩]

/-- Counterexample to C6 as stated: in the `app.py` implementation the
expected value of a flagged record is `int(mediana)` of the already
truncated statistics (line 90), so on the batch `[1, 2, 3, 4]` with its
first record flagged, the anomaly's expected value is `2` while the batch
median is `5/2`. -/
theorem C6_app_median_counterexample :
    (App.analisar_cargas scorerC6 cargasMed).anomalias.map
        (fun a => a.valor_esperado) = [2] ∧
    percentile [1, 2, 3, 4] 50 = 5 / 2 ∧ ((2 : ℚ) ≠ 5 / 2) := by
  have hmed : percentile [(1 : ℚ), 2, 3, 4] 50 = 5 / 2 := by
    have hsort : sortVals [(1 : ℚ), 2, 3, 4] = [1, 2, 3, 4] := by decide
    unfold percentile
    rw [hsort]
    norm_num [interpAt, nthC]
  have h1 : (App.analisar_cargas scorerC6 cargasMed).anomalias.map
      (fun a => a.valor_esperado) =
      [((pyTrunc (((pyTrunc (percentile [(1 : ℚ), 2, 3, 4] 50) : ℤ) : ℚ)) :
        ℤ) : ℚ)] := rfl
  have h2 : pyTrunc ((5 : ℚ) / 2) = 2 := by
    unfold pyTrunc
    rw [if_pos (by norm_num)]
    norm_num
  refine ⟨?_, hmed, by norm_num⟩
  rw [h1, hmed, h2, pyTrunc_intCast]
  norm_num

/-- C6 amended: on every batch of at least 3 records for which extraction
succeeds and the scorer returns label and score vectors of the batch's
length, each implementation returns a result whose anomaly list has
exactly one entry per record labelled `-1`, in the original record order
(witnessed by the identifier projection), whose statistics are its own
`_calcular_estatisticas` of the extracted vector, and whose totals and
percentage fields are the batch length, the anomaly count, and the
percentage rounded to two decimals; each anomaly's expected value is the
batch median in `detector_anomalias.py` but the `int()`-truncated batch
median in `app.py`. -/
theorem C6_orchestrator_amended (scorer : Scorer) (cargas : List Carga)
    (valores : List ℚ) (predicoes : List ℤ) (scores : List ℚ)
    (hlen : 3 ≤ cargas.length)
    (hval : extrair_valores cargas = .ok valores)
    (hscore : scorer valores = .ok (predicoes, scores))
    (hp : predicoes.length = cargas.length)
    (hs : scores.length = cargas.length) :
    (∃ r : Resultado, Det.analisar_cargas scorer cargas = .ok r ∧
      r.total_cargas = some cargas.length ∧
      r.total_anomalias = some r.anomalias.length ∧
      r.percentual_anomalias =
        some (round2 ((r.anomalias.length : ℚ) / (cargas.length : ℚ) * 100)) ∧
      r.anomalias.length = (predicoes.filter fun p => p == -1).length ∧
      r.anomalias.map (fun a => a.id) =
        ((cargas.zip predicoes).filter fun x => x.2 == -1).map
          (fun x => x.1.id) ∧
      r.estatisticas = some (Det.calcular_estatisticas valores) ∧
      ∀ a ∈ r.anomalias, a.valor_esperado = percentile valores 50) ∧
    ((App.analisar_cargas scorer cargas).total_cargas = some cargas.length ∧
      (App.analisar_cargas scorer cargas).total_anomalias =
        some (App.analisar_cargas scorer cargas).anomalias.length ∧
      (App.analisar_cargas scorer cargas).percentual_anomalias =
        some (round2 (((App.analisar_cargas scorer cargas).anomalias.length :
          ℚ) / (cargas.length : ℚ) * 100)) ∧
      (App.analisar_cargas scorer cargas).anomalias.length =
        (predicoes.filter fun p => p == -1).length ∧
      (App.analisar_cargas scorer cargas).anomalias.map (fun a => a.id) =
        ((cargas.zip predicoes).filter fun x => x.2 == -1).map
          (fun x => x.1.id) ∧
      (App.analisar_cargas scorer cargas).estatisticas =
        some (App.calcular_estatisticas valores) ∧
      ∀ a ∈ (App.analisar_cargas scorer cargas).anomalias,
        a.valor_esperado = ((pyTrunc (percentile valores 50) : ℤ) : ℚ)) := by
  have hvl : valores.length = cargas.length := extrair_length hval
  have heq : Det.analisar_cargas scorer cargas = .ok
      { anomalias :=
          ((((cargas.zip valores).zip (predicoes.zip scores)).filter
              (fun x => x.2.1 == -1)).map
            (fun x => Det.mk_anomalia (Det.calcular_estatisticas valores)
              scores x.1.1 x.1.2 x.2.2)),
        estatisticas := some (Det.calcular_estatisticas valores),
        total_cargas := some cargas.length,
        total_anomalias :=
          some ((((cargas.zip valores).zip (predicoes.zip scores)).filter
              (fun x => x.2.1 == -1)).map
            (fun x => Det.mk_anomalia (Det.calcular_estatisticas valores)
              scores x.1.1 x.1.2 x.2.2)).length,
        percentual_anomalias :=
          some (round2 ((((((cargas.zip valores).zip
              (predicoes.zip scores)).filter (fun x => x.2.1 == -1)).map
            (fun x => Det.mk_anomalia (Det.calcular_estatisticas valores)
              scores x.1.1 x.1.2 x.2.2)).length : ℚ) /
            (cargas.length : ℚ) * 100)),
        aviso := none, erro := none, comparacao_historico := none } := by
    unfold Det.analisar_cargas
    rw [if_neg (by omega), hval, ok_bind, hscore, ok_bind]
  have hA : App.analisar_cargas scorer cargas =
      { anomalias :=
          ((((cargas.zip valores).zip (predicoes.zip scores)).filter
              (fun x => x.2.1 == -1)).map
            (fun x => App.mk_anomalia (App.calcular_estatisticas valores)
              scores x.1.1 x.1.2 x.2.2)),
        estatisticas := some (App.calcular_estatisticas valores),
        total_cargas := some cargas.length,
        total_anomalias :=
          some ((((cargas.zip valores).zip (predicoes.zip scores)).filter
              (fun x => x.2.1 == -1)).map
            (fun x => App.mk_anomalia (App.calcular_estatisticas valores)
              scores x.1.1 x.1.2 x.2.2)).length,
        percentual_anomalias :=
          some (round2 ((((((cargas.zip valores).zip
              (predicoes.zip scores)).filter (fun x => x.2.1 == -1)).map
            (fun x => App.mk_anomalia (App.calcular_estatisticas valores)
              scores x.1.1 x.1.2 x.2.2)).length : ℚ) /
            (cargas.length : ℚ) * 100)),
        aviso := none, erro := none, comparacao_historico := none } := by
    have hcore : App.analisar_cargas_core scorer cargas = .ok
        { anomalias :=
            ((((cargas.zip valores).zip (predicoes.zip scores)).filter
                (fun x => x.2.1 == -1)).map
              (fun x => App.mk_anomalia (App.calcular_estatisticas valores)
                scores x.1.1 x.1.2 x.2.2)),
          estatisticas := some (App.calcular_estatisticas valores),
          total_cargas := some cargas.length,
          total_anomalias :=
            some ((((cargas.zip valores).zip (predicoes.zip scores)).filter
                (fun x => x.2.1 == -1)).map
              (fun x => App.mk_anomalia (App.calcular_estatisticas valores)
                scores x.1.1 x.1.2 x.2.2)).length,
          percentual_anomalias :=
            some (round2 ((((((cargas.zip valores).zip
                (predicoes.zip scores)).filter (fun x => x.2.1 == -1)).map
              (fun x => App.mk_anomalia (App.calcular_estatisticas valores)
                scores x.1.1 x.1.2 x.2.2)).length : ℚ) /
              (cargas.length : ℚ) * 100)),
          aviso := none, erro := none, comparacao_historico := none } := by
      unfold App.analisar_cargas_core
      rw [hval, ok_bind, hscore, ok_bind]
    unfold App.analisar_cargas
    rw [if_neg (by omega), hcore]
  have hproj : ((cargas.zip valores).zip (predicoes.zip scores)).map
      (fun x => (x.1.1, x.2.1)) = cargas.zip predicoes :=
    zipzip_proj cargas valores predicoes scores hvl hp hs
  have hids : ((((cargas.zip valores).zip (predicoes.zip scores)).filter
        (fun x => x.2.1 == -1)).map
      (fun x => Det.mk_anomalia (Det.calcular_estatisticas valores)
        scores x.1.1 x.1.2 x.2.2)).map (fun a => a.id) =
      ((cargas.zip predicoes).filter fun x => x.2 == -1).map
        (fun x => x.1.id) := by
    rw [← hproj, List.filter_map, List.map_map, List.map_map]
    rfl
  have hidsA : ((((cargas.zip valores).zip (predicoes.zip scores)).filter
        (fun x => x.2.1 == -1)).map
      (fun x => App.mk_anomalia (App.calcular_estatisticas valores)
        scores x.1.1 x.1.2 x.2.2)).map (fun a => a.id) =
      ((cargas.zip predicoes).filter fun x => x.2 == -1).map
        (fun x => x.1.id) := by
    rw [← hproj, List.filter_map, List.map_map, List.map_map]
    rfl
  have hsnd : predicoes.filter (fun p => p == -1) =
      ((cargas.zip predicoes).filter fun x => x.2 == -1).map Prod.snd := by
    conv_lhs => rw [← List.map_snd_zip cargas predicoes (le_of_eq hp)]
    rw [List.filter_map]
    rfl
  constructor
  · refine ⟨_, heq, rfl, rfl, rfl, ?_, hids, rfl, ?_⟩
    · have h1 := congrArg List.length hids
      rw [List.length_map, List.length_map, List.length_map] at h1
      rw [hsnd, List.length_map, List.length_map]
      exact h1
    · intro a ha
      obtain ⟨x, hx, rfl⟩ := List.mem_map.mp ha
      rfl
  · rw [hA]
    refine ⟨rfl, rfl, rfl, ?_, hidsA, rfl, ?_⟩
    · have h1 := congrArg List.length hidsA
      rw [List.length_map, List.length_map, List.length_map] at h1
      rw [hsnd, List.length_map, List.length_map]
      exact h1
    · intro a ha
      obtain ⟨x, hx, rfl⟩ := List.mem_map.mp ha
      show ((pyTrunc (((pyTrunc (percentile valores 50) : ℤ) : ℚ)) : ℤ) : ℚ) =
        ((pyTrunc (percentile valores 50) : ℤ) : ℚ)
      rw [pyTrunc_intCast]

/-- Witness for the amended C6: a 3-record batch, all values coercible, a
scorer labelling every record an inlier with score `0`. -/
theorem C6_orchestrator_amended_witness :
    (∃ r : Resultado,
      Det.analisar_cargas scorerInliers
        [⟨some 1, none, none, .num 1⟩, ⟨some 2, none, none, .num 2⟩,
          ⟨some 3, none, none, .num 100⟩] = .ok r ∧
      r.total_cargas = some ([⟨some 1, none, none, .num 1⟩,
        ⟨some 2, none, none, .num 2⟩,
        (⟨some 3, none, none, .num 100⟩ : Carga)] : List Carga).length ∧
      r.total_anomalias = some r.anomalias.length ∧
      r.percentual_anomalias =
        some (round2 ((r.anomalias.length : ℚ) /
          (([⟨some 1, none, none, .num 1⟩, ⟨some 2, none, none, .num 2⟩,
            (⟨some 3, none, none, .num 100⟩ : Carga)] : List Carga).length : ℚ)
          * 100)) ∧
      r.anomalias.length =
        (([1, 1, 1] : List ℤ).filter fun p => p == -1).length ∧
      r.anomalias.map (fun a => a.id) =
        ((([⟨some 1, none, none, .num 1⟩, ⟨some 2, none, none, .num 2⟩,
            (⟨some 3, none, none, .num 100⟩ : Carga)] : List Carga).zip
          ([1, 1, 1] : List ℤ)).filter fun x => x.2 == -1).map
          (fun x => x.1.id) ∧
      r.estatisticas = some (Det.calcular_estatisticas [1, 2, 100]) ∧
      ∀ a ∈ r.anomalias, a.valor_esperado = percentile [1, 2, 100] 50) ∧
    ((App.analisar_cargas scorerInliers
        [⟨some 1, none, none, .num 1⟩, ⟨some 2, none, none, .num 2⟩,
          ⟨some 3, none, none, .num 100⟩]).total_cargas =
      some ([⟨some 1, none, none, .num 1⟩, ⟨some 2, none, none, .num 2⟩,
        (⟨some 3, none, none, .num 100⟩ : Carga)] : List Carga).length ∧
      (App.analisar_cargas scorerInliers
        [⟨some 1, none, none, .num 1⟩, ⟨some 2, none, none, .num 2⟩,
          ⟨some 3, none, none, .num 100⟩]).total_anomalias =
        some (App.analisar_cargas scorerInliers
          [⟨some 1, none, none, .num 1⟩, ⟨some 2, none, none, .num 2⟩,
            ⟨some 3, none, none, .num 100⟩]).anomalias.length ∧
      (App.analisar_cargas scorerInliers
        [⟨some 1, none, none, .num 1⟩, ⟨some 2, none, none, .num 2⟩,
          ⟨some 3, none, none, .num 100⟩]).percentual_anomalias =
        some (round2 (((App.analisar_cargas scorerInliers
          [⟨some 1, none, none, .num 1⟩, ⟨some 2, none, none, .num 2⟩,
            ⟨some 3, none, none, .num 100⟩]).anomalias.length : ℚ) /
          (([⟨some 1, none, none, .num 1⟩, ⟨some 2, none, none, .num 2⟩,
            (⟨some 3, none, none, .num 100⟩ : Carga)] : List Carga).length : ℚ)
          * 100)) ∧
      (App.analisar_cargas scorerInliers
        [⟨some 1, none, none, .num 1⟩, ⟨some 2, none, none, .num 2⟩,
          ⟨some 3, none, none, .num 100⟩]).anomalias.length =
        (([1, 1, 1] : List ℤ).filter fun p => p == -1).length ∧
      (App.analisar_cargas scorerInliers
        [⟨some 1, none, none, .num 1⟩, ⟨some 2, none, none, .num 2⟩,
          ⟨some 3, none, none, .num 100⟩]).anomalias.map (fun a => a.id) =
        ((([⟨some 1, none, none, .num 1⟩, ⟨some 2, none, none, .num 2⟩,
            (⟨some 3, none, none, .num 100⟩ : Carga)] : List Carga).zip
          ([1, 1, 1] : List ℤ)).filter fun x => x.2 == -1).map
          (fun x => x.1.id) ∧
      (App.analisar_cargas scorerInliers
        [⟨some 1, none, none, .num 1⟩, ⟨some 2, none, none, .num 2⟩,
          ⟨some 3, none, none, .num 100⟩]).estatisticas =
        some (App.calcular_estatisticas [1, 2, 100]) ∧
      ∀ a ∈ (App.analisar_cargas scorerInliers
        [⟨some 1, none, none, .num 1⟩, ⟨some 2, none, none, .num 2⟩,
          ⟨some 3, none, none, .num 100⟩]).anomalias,
        a.valor_esperado = ((pyTrunc (percentile [1, 2, 100] 50) : ℤ) : ℚ)) :=
  C6_orchestrator_amended scorerInliers
    [⟨some 1, none, none, .num 1⟩, ⟨some 2, none, none, .num 2⟩,
      ⟨some 3, none, none, .num 100⟩]
    [1, 2, 100] [1, 1, 1] [0, 0, 0]
    (by norm_num) rfl rfl rfl rfl

/-! ### Claim C10: the two `analisar_cargas` implementations -/

/-- The fieldwise `int()` truncation that separates the `app.py` statistics
from the `detector_anomalias.py` statistics. -/
def truncEst (e : Estatisticas) : Estatisticas :=
  { media := (pyTrunc e.media : ℚ),
    mediana := (pyTrunc e.mediana : ℚ),
    minimo := (pyTrunc e.minimo : ℚ),
    maximo := (pyTrunc e.maximo : ℚ),
    q1 := (pyTrunc e.q1 : ℚ),
    q3 := (pyTrunc e.q3 : ℚ),
    iqr := (pyTrunc e.iqr : ℚ) }

theorem app_est_trunc (valores : List ℚ) :
    App.calcular_estatisticas valores =
      truncEst (Det.calcular_estatisticas valores) := rfl

/-- A 3-record batch whose mean `1/3` is not an integer. -/
def cargasFrac : List Carga :=
  [⟨some 1, none, none, .num 0⟩, ⟨some 2, none, none, .num 0⟩,
    ⟨some 3, none, none, .num 1⟩]

/-- Counterexample to C10 as stated: on the batch with values `[0, 0, 1]`
and a scorer labelling every record an inlier, the two implementations
disagree — `detector_anomalias.py` reports the mean `1/3` while `app.py`
truncates it to `0` (and likewise truncates the other statistics). -/
theorem C10_counterexample :
    Det.analisar_cargas scorerInliers cargasFrac ≠
      .ok (App.analisar_cargas scorerInliers cargasFrac) := by
  have hD : Det.analisar_cargas scorerInliers cargasFrac = .ok
      { anomalias := [],
        estatisticas := some (Det.calcular_estatisticas [0, 0, 1]),
        total_cargas := some 3, total_anomalias := some 0,
        percentual_anomalias := some (round2 ((0 : ℚ) / (3 : ℚ) * 100)),
        aviso := none, erro := none, comparacao_historico := none } := rfl
  have hA : App.analisar_cargas scorerInliers cargasFrac =
      { anomalias := [],
        estatisticas := some (App.calcular_estatisticas [0, 0, 1]),
        total_cargas := some 3, total_anomalias := some 0,
        percentual_anomalias := some (round2 ((0 : ℚ) / (3 : ℚ) * 100)),
        aviso := none, erro := none, comparacao_historico := none } := rfl
  intro hcontra
  rw [hD, hA] at hcontra
  have h2 := Except.ok.inj hcontra
  have h3 := congrArg Resultado.estatisticas h2
  have h4 := Option.some.inj h3
  have h5 := congrArg Estatisticas.media h4
  have h6 : npMean [(0 : ℚ), 0, 1] = 1 / 3 := by norm_num [npMean]
  have h7 : pyTrunc ((1 : ℚ) / 3) = 0 := by
    unfold pyTrunc
    rw [if_pos (by norm_num)]
    norm_num
  have h8 : (Det.calcular_estatisticas [0, 0, 1]).media = 1 / 3 := h6
  have h9 : (App.calcular_estatisticas [0, 0, 1]).media = 0 := by
    show (↑(pyTrunc (npMean [0, 0, 1])) : ℚ) = 0
    rw [h6, h7]
    norm_num
  rw [h8, h9] at h5
  norm_num at h5

/-- C10 amended: with identical scorer outputs and successful extraction
and scoring, the two implementations flag the same records — the anomaly
lists agree componentwise on identifier, value, severity and raw score —
and return the same totals and percentage; the `app.py` statistics are
the fieldwise `int()` truncation of the `detector_anomalias.py`
statistics, and the remaining anomaly fields (type, suggestion, expected
value, descriptor defaults) may differ through that truncation and the
`'N/A'` defaults. -/
theorem C10_analisar_cargas_amended (scorer : Scorer) (cargas : List Carga)
    (valores : List ℚ) (predicoes : List ℤ) (scores : List ℚ)
    (hval : extrair_valores cargas = .ok valores)
    (hscore : scorer valores = .ok (predicoes, scores)) :
    ∃ rD : Resultado, Det.analisar_cargas scorer cargas = .ok rD ∧
      (App.analisar_cargas scorer cargas).anomalias.map (fun a => a.id) =
        rD.anomalias.map (fun a => a.id) ∧
      (App.analisar_cargas scorer cargas).anomalias.map (fun a => a.valor) =
        rD.anomalias.map (fun a => a.valor) ∧
      (App.analisar_cargas scorer cargas).anomalias.map
          (fun a => a.severidade) =
        rD.anomalias.map (fun a => a.severidade) ∧
      (App.analisar_cargas scorer cargas).anomalias.map
          (fun a => a.score_anomalia) =
        rD.anomalias.map (fun a => a.score_anomalia) ∧
      (App.analisar_cargas scorer cargas).total_cargas = rD.total_cargas ∧
      (App.analisar_cargas scorer cargas).total_anomalias =
        rD.total_anomalias ∧
      (App.analisar_cargas scorer cargas).percentual_anomalias =
        rD.percentual_anomalias ∧
      (App.analisar_cargas scorer cargas).aviso = rD.aviso ∧
      (App.analisar_cargas scorer cargas).erro = rD.erro ∧
      (App.analisar_cargas scorer cargas).estatisticas =
        rD.estatisticas.map truncEst := by
  by_cases hlen : cargas.length < 3
  · have hD : Det.analisar_cargas scorer cargas = .ok avisoResultado := by
      unfold Det.analisar_cargas; rw [if_pos hlen]
    have hA : App.analisar_cargas scorer cargas = avisoResultado := by
      unfold App.analisar_cargas; rw [if_pos hlen]
    refine ⟨avisoResultado, hD, ?_⟩
    rw [hA]
    exact ⟨rfl, rfl, rfl, rfl, rfl, rfl, rfl, rfl, rfl, rfl⟩
  · have hD : Det.analisar_cargas scorer cargas = .ok
        { anomalias :=
            ((((cargas.zip valores).zip (predicoes.zip scores)).filter
                (fun x => x.2.1 == -1)).map
              (fun x => Det.mk_anomalia (Det.calcular_estatisticas valores)
                scores x.1.1 x.1.2 x.2.2)),
          estatisticas := some (Det.calcular_estatisticas valores),
          total_cargas := some cargas.length,
          total_anomalias :=
            some ((((cargas.zip valores).zip (predicoes.zip scores)).filter
                (fun x => x.2.1 == -1)).map
              (fun x => Det.mk_anomalia (Det.calcular_estatisticas valores)
                scores x.1.1 x.1.2 x.2.2)).length,
          percentual_anomalias :=
            some (round2 ((((((cargas.zip valores).zip
                (predicoes.zip scores)).filter (fun x => x.2.1 == -1)).map
              (fun x => Det.mk_anomalia (Det.calcular_estatisticas valores)
                scores x.1.1 x.1.2 x.2.2)).length : ℚ) /
              (cargas.length : ℚ) * 100)),
          aviso := none, erro := none, comparacao_historico := none } := by
      unfold Det.analisar_cargas
      rw [if_neg hlen, hval, ok_bind, hscore, ok_bind]
    have hA : App.analisar_cargas scorer cargas =
        { anomalias :=
            ((((cargas.zip valores).zip (predicoes.zip scores)).filter
                (fun x => x.2.1 == -1)).map
              (fun x => App.mk_anomalia (App.calcular_estatisticas valores)
                scores x.1.1 x.1.2 x.2.2)),
          estatisticas := some (App.calcular_estatisticas valores),
          total_cargas := some cargas.length,
          total_anomalias :=
            some ((((cargas.zip valores).zip (predicoes.zip scores)).filter
                (fun x => x.2.1 == -1)).map
              (fun x => App.mk_anomalia (App.calcular_estatisticas valores)
                scores x.1.1 x.1.2 x.2.2)).length,
          percentual_anomalias :=
            some (round2 ((((((cargas.zip valores).zip
                (predicoes.zip scores)).filter (fun x => x.2.1 == -1)).map
              (fun x => App.mk_anomalia (App.calcular_estatisticas valores)
                scores x.1.1 x.1.2 x.2.2)).length : ℚ) /
              (cargas.length : ℚ) * 100)),
          aviso := none, erro := none, comparacao_historico := none } := by
      have hcore : App.analisar_cargas_core scorer cargas = .ok
          { anomalias :=
              ((((cargas.zip valores).zip (predicoes.zip scores)).filter
                  (fun x => x.2.1 == -1)).map
                (fun x => App.mk_anomalia (App.calcular_estatisticas valores)
                  scores x.1.1 x.1.2 x.2.2)),
            estatisticas := some (App.calcular_estatisticas valores),
            total_cargas := some cargas.length,
            total_anomalias :=
              some ((((cargas.zip valores).zip (predicoes.zip scores)).filter
                  (fun x => x.2.1 == -1)).map
                (fun x => App.mk_anomalia (App.calcular_estatisticas valores)
                  scores x.1.1 x.1.2 x.2.2)).length,
            percentual_anomalias :=
              some (round2 ((((((cargas.zip valores).zip
                  (predicoes.zip scores)).filter (fun x => x.2.1 == -1)).map
                (fun x => App.mk_anomalia (App.calcular_estatisticas valores)
                  scores x.1.1 x.1.2 x.2.2)).length : ℚ) /
                (cargas.length : ℚ) * 100)),
            aviso := none, erro := none, comparacao_historico := none } := by
        unfold App.analisar_cargas_core
        rw [hval, ok_bind, hscore, ok_bind]
      unfold App.analisar_cargas
      rw [if_neg hlen, hcore]
    refine ⟨_, hD, ?_⟩
    rw [hA]
    refine ⟨?_, ?_, ?_, ?_, rfl, ?_, ?_, rfl, rfl, rfl⟩
    · rw [List.map_map, List.map_map]; rfl
    · rw [List.map_map, List.map_map]; rfl
    · rw [List.map_map, List.map_map]; rfl
    · rw [List.map_map, List.map_map]; rfl
    · show some (List.map _ _).length = some (List.map _ _).length
      rw [List.length_map, List.length_map]
    · show some (round2 _) = some (round2 _)
      rw [List.length_map, List.length_map]

/-- Witness for the amended C10 on the `[0, 0, 1]` batch with the
all-inliers scorer. -/
theorem C10_analisar_cargas_amended_witness :
    ∃ rD : Resultado, Det.analisar_cargas scorerInliers cargasFrac = .ok rD ∧
      (App.analisar_cargas scorerInliers cargasFrac).anomalias.map
          (fun a => a.id) = rD.anomalias.map (fun a => a.id) ∧
      (App.analisar_cargas scorerInliers cargasFrac).anomalias.map
          (fun a => a.valor) = rD.anomalias.map (fun a => a.valor) ∧
      (App.analisar_cargas scorerInliers cargasFrac).anomalias.map
          (fun a => a.severidade) = rD.anomalias.map (fun a => a.severidade) ∧
      (App.analisar_cargas scorerInliers cargasFrac).anomalias.map
          (fun a => a.score_anomalia) =
        rD.anomalias.map (fun a => a.score_anomalia) ∧
      (App.analisar_cargas scorerInliers cargasFrac).total_cargas =
        rD.total_cargas ∧
      (App.analisar_cargas scorerInliers cargasFrac).total_anomalias =
        rD.total_anomalias ∧
      (App.analisar_cargas scorerInliers cargasFrac).percentual_anomalias =
        rD.percentual_anomalias ∧
      (App.analisar_cargas scorerInliers cargasFrac).aviso = rD.aviso ∧
      (App.analisar_cargas scorerInliers cargasFrac).erro = rD.erro ∧
      (App.analisar_cargas scorerInliers cargasFrac).estatisticas =
        rD.estatisticas.map truncEst :=
  C10_analisar_cargas_amended scorerInliers cargasFrac [0, 0, 1]
    [1, 1, 1] [0, 0, 0] rfl rfl

/-! ### Claims C7–C9: the historical augmenter -/

/-- Full description of a successful run of the augmentation loop: the
final list extends the accumulator by anomalies built only from current
records whose value exceeds twice the historical maximum and whose
identifier was not yet present; the appended identifiers are distinct,
and every exceeding record ends up represented in the final list. -/
theorem hist_foldlM_spec (hs : HistStats) :
    ∀ (cs : List Carga) (acc final : List Anomalia),
      List.foldlM (Det.hist_step hs) acc cs = .ok final →
      ∃ extras,
        final = acc ++ extras ∧
        (∀ a ∈ extras,
          (∃ c ∈ cs, ∃ v, floatOf c.valorRaw = .ok v ∧
            hs.max_historico * 2 < v ∧ a = Det.hist_anomalia hs c v) ∧
          ∀ b ∈ acc, ¬ b.id = a.id) ∧
        (extras.map (fun a => a.id)).Nodup ∧
        (∀ c ∈ cs, ∀ v, floatOf c.valorRaw = .ok v →
          hs.max_historico * 2 < v → ∃ a ∈ final, a.id = c.id) := by
  intro cs
  induction cs with
  | nil =>
    intro acc final h
    rw [List.foldlM_nil] at h
    have hacc : acc = final := by simpa [pure, Except.pure] using h
    refine ⟨[], by simp [← hacc], by simp, by simp, by simp⟩
  | cons c cs ih =>
    intro acc final h
    rw [List.foldlM_cons] at h
    cases hstep : Det.hist_step hs acc c with
    | error e => rw [hstep, error_bind] at h; exact absurd h (by simp)
    | ok acc2 =>
      rw [hstep, ok_bind] at h
      obtain ⟨extras2, hfin, hprop, hnd, hcomp⟩ := ih acc2 final h
      unfold Det.hist_step at hstep
      cases hf : floatOf c.valorRaw with
      | error e => rw [hf, error_bind] at hstep; exact absurd hstep (by simp)
      | ok v =>
        rw [hf, ok_bind] at hstep
        by_cases hlt : hs.max_historico * 2 < v
        · rw [if_pos hlt] at hstep
          by_cases hdet : acc.any (fun a => a.id == c.id) = true
          · rw [if_pos hdet] at hstep
            have hacc : acc2 = acc := (Except.ok.inj hstep).symm
            subst hacc
            refine ⟨extras2, hfin, ?_, hnd, ?_⟩
            · intro a ha
              obtain ⟨⟨c2, hc2, v2, hv2, hlt2, ha2⟩, hb⟩ := hprop a ha
              exact ⟨⟨c2, List.mem_cons_of_mem c hc2, v2, hv2, hlt2, ha2⟩, hb⟩
            · intro c3 hc3 v3 hv3 hlt3
              rcases List.mem_cons.mp hc3 with rfl | hc3
              · obtain ⟨b, hb, hbeq⟩ := List.any_eq_true.mp hdet
                exact ⟨b, hfin ▸ List.mem_append_left _ hb, eq_of_beq hbeq⟩
              · exact hcomp c3 hc3 v3 hv3 hlt3
          · rw [if_neg hdet] at hstep
            have hacc : acc2 = acc ++ [Det.hist_anomalia hs c v] :=
              (Except.ok.inj hstep).symm
            subst hacc
            refine ⟨Det.hist_anomalia hs c v :: extras2, ?_, ?_, ?_, ?_⟩
            · rw [hfin, List.append_assoc]; rfl
            · intro a ha
              rcases List.mem_cons.mp ha with rfl | ha2
              · refine ⟨⟨c, List.mem_cons_self c cs, v, hf, hlt, rfl⟩, ?_⟩
                intro b hb heq
                exact hdet (List.any_eq_true.mpr ⟨b, hb, beq_iff_eq.mpr heq⟩)
              · obtain ⟨⟨c2, hc2, v2, hv2, hlt2, ha3⟩, hb⟩ := hprop a ha2
                refine ⟨⟨c2, List.mem_cons_of_mem c hc2, v2, hv2, hlt2, ha3⟩, ?_⟩
                intro b hb2
                exact hb b (List.mem_append_left _ hb2)
            · rw [List.map_cons]
              refine List.nodup_cons.mpr ⟨?_, hnd⟩
              intro hmem
              obtain ⟨a2, ha2, heq⟩ := List.mem_map.mp hmem
              obtain ⟨_, hb⟩ := hprop a2 ha2
              exact hb (Det.hist_anomalia hs c v)
                (List.mem_append_right _ (by simp)) heq.symm
            · intro c3 hc3 v3 hv3 hlt3
              rcases List.mem_cons.mp hc3 with rfl | hc3
              · refine ⟨Det.hist_anomalia hs c3 v, ?_, rfl⟩
                rw [hfin]
                exact List.mem_append_left _
                  (List.mem_append_right _ (by simp))
              · exact hcomp c3 hc3 v3 hv3 hlt3
        · rw [if_neg hlt] at hstep
          have hacc : acc2 = acc := (Except.ok.inj hstep).symm
          subst hacc
          refine ⟨extras2, hfin, ?_, hnd, ?_⟩
          · intro a ha
            obtain ⟨⟨c2, hc2, v2, hv2, hlt2, ha2⟩, hb⟩ := hprop a ha
            exact ⟨⟨c2, List.mem_cons_of_mem c hc2, v2, hv2, hlt2, ha2⟩, hb⟩
          · intro c3 hc3 v3 hv3 hlt3
            rcases List.mem_cons.mp hc3 with rfl | hc3
            · rw [hf] at hv3
              exact absurd (Except.ok.inj hv3 ▸ hlt3) hlt
            · exact hcomp c3 hc3 v3 hv3 hlt3

/-- The augmentation loop cannot fail when every current value coerces. -/
theorem hist_foldlM_total (hs : HistStats) :
    ∀ (cs : List Carga) (acc : List Anomalia),
      (∀ c ∈ cs, ∃ v, floatOf c.valorRaw = .ok v) →
      ∃ final, List.foldlM (Det.hist_step hs) acc cs = .ok final := by
  intro cs
  induction cs with
  | nil => intro acc _; exact ⟨acc, by rw [List.foldlM_nil]; rfl⟩
  | cons c cs ih =>
    intro acc h
    obtain ⟨v, hv⟩ := h c (List.mem_cons_self c cs)
    have hstep : ∃ acc2, Det.hist_step hs acc c = .ok acc2 := by
      unfold Det.hist_step
      rw [hv, ok_bind]
      by_cases hlt : hs.max_historico * 2 < v
      · rw [if_pos hlt]
        by_cases hdet : acc.any (fun a => a.id == c.id) = true
        · rw [if_pos hdet]; exact ⟨acc, rfl⟩
        · rw [if_neg hdet]; exact ⟨_, rfl⟩
      · rw [if_neg hlt]; exact ⟨acc, rfl⟩
    obtain ⟨acc2, hacc2⟩ := hstep
    obtain ⟨final, hfin⟩ :=
      ih acc2 (fun c2 hc2 => h c2 (List.mem_cons_of_mem c hc2))
    exact ⟨final, by rw [List.foldlM_cons, hacc2, ok_bind]; exact hfin⟩

/-- The classifier never produces the historical-only label. -/
theorem classificar_ne_fora (v : ℚ) (s : Estatisticas) :
    classificar_anomalia v s ≠ .FORA_DO_HISTORICO := by
  unfold classificar_anomalia
  split_ifs <;> simp

/-- Every anomaly produced by the base orchestrator of
`detector_anomalias.py` carries a `chassis` key and a `score_anomalia`
key, and its type is never `FORA_DO_HISTORICO`. -/
theorem det_base_shape (scorer : Scorer) (cargas : List Carga) (r : Resultado)
    (h : Det.analisar_cargas scorer cargas = .ok r) :
    ∀ a ∈ r.anomalias, a.chassis.isSome ∧ a.score_anomalia.isSome ∧
      a.tipo ≠ .FORA_DO_HISTORICO := by
  unfold Det.analisar_cargas at h
  by_cases hlen : cargas.length < 3
  · rw [if_pos hlen] at h
    rw [← Except.ok.inj h]
    intro a ha
    simp [avisoResultado] at ha
  · rw [if_neg hlen] at h
    cases hv : extrair_valores cargas with
    | error e => rw [hv, error_bind] at h; exact absurd h (by simp)
    | ok vals =>
      rw [hv, ok_bind] at h
      cases hsc : scorer vals with
      | error e => rw [hsc, error_bind] at h; exact absurd h (by simp)
      | ok ps =>
        obtain ⟨preds, scores⟩ := ps
        rw [hsc, ok_bind] at h
        intro a ha
        rw [← Except.ok.inj h] at ha
        obtain ⟨x, hx, rfl⟩ := List.mem_map.mp ha
        exact ⟨rfl, rfl, classificar_ne_fora _ _⟩

/-- A single current record with value `100` and identifier `1`. -/
def carga100 : Carga := ⟨some 1, none, none, .num 100⟩

/-- A 10-record history whose every value is `1`. -/
def hist10 : List Carga := List.replicate 10 ⟨none, none, none, .num 1⟩

/-- `app.py` analogue of `hist_foldlM_spec`, for the loop of
`analisar_com_historico` of `app.py` (truncated historical statistics and
the `'N/A'` vehicle default in the appended anomaly). -/
theorem app_hist_foldlM_spec (hs : HistStats) :
    ∀ (cs : List Carga) (acc final : List Anomalia),
      List.foldlM (App.hist_step hs) acc cs = .ok final →
      ∃ extras,
        final = acc ++ extras ∧
        (∀ a ∈ extras,
          (∃ c ∈ cs, ∃ v, floatOf c.valorRaw = .ok v ∧
            hs.max_historico * 2 < v ∧ a = App.hist_anomalia hs c v) ∧
          ∀ b ∈ acc, ¬ b.id = a.id) ∧
        (extras.map (fun a => a.id)).Nodup ∧
        (∀ c ∈ cs, ∀ v, floatOf c.valorRaw = .ok v →
          hs.max_historico * 2 < v → ∃ a ∈ final, a.id = c.id) := by
  intro cs
  induction cs with
  | nil =>
    intro acc final h
    rw [List.foldlM_nil] at h
    have hacc : acc = final := by simpa [pure, Except.pure] using h
    refine ⟨[], by simp [← hacc], by simp, by simp, by simp⟩
  | cons c cs ih =>
    intro acc final h
    rw [List.foldlM_cons] at h
    cases hstep : App.hist_step hs acc c with
    | error e => rw [hstep, error_bind] at h; exact absurd h (by simp)
    | ok acc2 =>
      rw [hstep, ok_bind] at h
      obtain ⟨extras2, hfin, hprop, hnd, hcomp⟩ := ih acc2 final h
      unfold App.hist_step at hstep
      cases hf : floatOf c.valorRaw with
      | error e => rw [hf, error_bind] at hstep; exact absurd hstep (by simp)
      | ok v =>
        rw [hf, ok_bind] at hstep
        by_cases hlt : hs.max_historico * 2 < v
        · rw [if_pos hlt] at hstep
          by_cases hdet : acc.any (fun a => a.id == c.id) = true
          · rw [if_pos hdet] at hstep
            have hacc : acc2 = acc := (Except.ok.inj hstep).symm
            subst hacc
            refine ⟨extras2, hfin, ?_, hnd, ?_⟩
            · intro a ha
              obtain ⟨⟨c2, hc2, v2, hv2, hlt2, ha2⟩, hb⟩ := hprop a ha
              exact ⟨⟨c2, List.mem_cons_of_mem c hc2, v2, hv2, hlt2, ha2⟩, hb⟩
            · intro c3 hc3 v3 hv3 hlt3
              rcases List.mem_cons.mp hc3 with rfl | hc3
              · obtain ⟨b, hb, hbeq⟩ := List.any_eq_true.mp hdet
                exact ⟨b, hfin ▸ List.mem_append_left _ hb, eq_of_beq hbeq⟩
              · exact hcomp c3 hc3 v3 hv3 hlt3
          · rw [if_neg hdet] at hstep
            have hacc : acc2 = acc ++ [App.hist_anomalia hs c v] :=
              (Except.ok.inj hstep).symm
            subst hacc
            refine ⟨App.hist_anomalia hs c v :: extras2, ?_, ?_, ?_, ?_⟩
            · rw [hfin, List.append_assoc]; rfl
            · intro a ha
              rcases List.mem_cons.mp ha with rfl | ha2
              · refine ⟨⟨c, List.mem_cons_self c cs, v, hf, hlt, rfl⟩, ?_⟩
                intro b hb heq
                exact hdet (List.any_eq_true.mpr ⟨b, hb, beq_iff_eq.mpr heq⟩)
              · obtain ⟨⟨c2, hc2, v2, hv2, hlt2, ha3⟩, hb⟩ := hprop a ha2
                refine ⟨⟨c2, List.mem_cons_of_mem c hc2, v2, hv2, hlt2, ha3⟩, ?_⟩
                intro b hb2
                exact hb b (List.mem_append_left _ hb2)
            · rw [List.map_cons]
              refine List.nodup_cons.mpr ⟨?_, hnd⟩
              intro hmem
              obtain ⟨a2, ha2, heq⟩ := List.mem_map.mp hmem
              obtain ⟨_, hb⟩ := hprop a2 ha2
              exact hb (App.hist_anomalia hs c v)
                (List.mem_append_right _ (by simp)) heq.symm
            · intro c3 hc3 v3 hv3 hlt3
              rcases List.mem_cons.mp hc3 with rfl | hc3
              · refine ⟨App.hist_anomalia hs c3 v, ?_, rfl⟩
                rw [hfin]
                exact List.mem_append_left _
                  (List.mem_append_right _ (by simp))
              · exact hcomp c3 hc3 v3 hv3 hlt3
        · rw [if_neg hlt] at hstep
          have hacc : acc2 = acc := (Except.ok.inj hstep).symm
          subst hacc
          refine ⟨extras2, hfin, ?_, hnd, ?_⟩
          · intro a ha
            obtain ⟨⟨c2, hc2, v2, hv2, hlt2, ha2⟩, hb⟩ := hprop a ha
            exact ⟨⟨c2, List.mem_cons_of_mem c hc2, v2, hv2, hlt2, ha2⟩, hb⟩
          · intro c3 hc3 v3 hv3 hlt3
            rcases List.mem_cons.mp hc3 with rfl | hc3
            · rw [hf] at hv3
              exact absurd (Except.ok.inj hv3 ▸ hlt3) hlt
            · exact hcomp c3 hc3 v3 hv3 hlt3

/-- The `app.py` augmentation loop cannot raise when every current value
coerces. -/
theorem app_hist_foldlM_total (hs : HistStats) :
    ∀ (cs : List Carga) (acc : List Anomalia),
      (∀ c ∈ cs, ∃ v, floatOf c.valorRaw = .ok v) →
      ∃ final, List.foldlM (App.hist_step hs) acc cs = .ok final := by
  intro cs
  induction cs with
  | nil => intro acc _; exact ⟨acc, by rw [List.foldlM_nil]; rfl⟩
  | cons c cs ih =>
    intro acc h
    obtain ⟨v, hv⟩ := h c (List.mem_cons_self c cs)
    have hstep : ∃ acc2, App.hist_step hs acc c = .ok acc2 := by
      unfold App.hist_step
      rw [hv, ok_bind]
      by_cases hlt : hs.max_historico * 2 < v
      · rw [if_pos hlt]
        by_cases hdet : acc.any (fun a => a.id == c.id) = true
        · rw [if_pos hdet]; exact ⟨acc, rfl⟩
        · rw [if_neg hdet]; exact ⟨_, rfl⟩
      · rw [if_neg hlt]; exact ⟨acc, rfl⟩
    obtain ⟨acc2, hacc2⟩ := hstep
    obtain ⟨final, hfin⟩ :=
      ih acc2 (fun c2 hc2 => h c2 (List.mem_cons_of_mem c hc2))
    exact ⟨final, by rw [List.foldlM_cons, hacc2, ok_bind]; exact hfin⟩

/-- On a raise-free run, the caught loop of `app.py` behaves as the
uncaught loop: the final accumulator replaces the anomaly list and the
historical summary is attached. -/
theorem app_loop_caught_ok (hs : HistStats) (resultado : Resultado) :
    ∀ (cs : List Carga) (acc final : List Anomalia),
      List.foldlM (App.hist_step hs) acc cs = .ok final →
      App.hist_loop_caught hs resultado acc cs =
        { resultado with
          anomalias := final,
          comparacao_historico := some hs } := by
  intro cs
  induction cs with
  | nil =>
    intro acc final h
    rw [List.foldlM_nil] at h
    have hacc : acc = final := by simpa [pure, Except.pure] using h
    subst hacc
    rfl
  | cons c cs ih =>
    intro acc final h
    rw [List.foldlM_cons] at h
    cases hstep : App.hist_step hs acc c with
    | error e => rw [hstep, error_bind] at h; exact absurd h (by simp)
    | ok acc2 =>
      rw [hstep, ok_bind] at h
      have hrec := ih acc2 final h
      unfold App.hist_loop_caught
      rw [hstep]
      exact hrec

/-- C7 amended: whenever the base analysis and the historical extraction
succeed on a history of at least 10 records (and every current value
coerces, so the comparison loop itself cannot raise), each implementation
extends its baseline anomaly list with exactly the historical anomalies —
type `FORA_DO_HISTORICO`, severity `90`, identifier absent from the
baseline list, appended identifiers pairwise distinct, every
threshold-exceeding record represented, historical summary attached — but
against its own threshold and expected value: in `detector_anomalias.py`
the threshold is twice the exact historical maximum and the expected
value the exact historical mean, while in `app.py` the threshold is twice
the `int()`-truncated historical maximum and the expected value the
`int()`-truncated historical mean. -/
theorem C7_historical_augmenter_amended (scorer : Scorer)
    (cargas historico : List Carga) (base : Resultado) (hvals : List ℚ)
    (hbase : Det.analisar_cargas scorer cargas = .ok base)
    (hlen : 10 ≤ historico.length)
    (hhv : extrair_valores historico = .ok hvals)
    (hcur : ∀ c ∈ cargas, ∃ v, floatOf c.valorRaw = .ok v) :
    (∃ r : Resultado,
      Det.analisar_com_historico scorer cargas (some historico) = .ok r ∧
      r.comparacao_historico = some (Det.histStatsOf hvals) ∧
      ∃ extras, r.anomalias = base.anomalias ++ extras ∧
        (∀ a ∈ extras, a.tipo = .FORA_DO_HISTORICO ∧ a.severidade = 90 ∧
          a.valor_esperado = npMean hvals ∧ npMax hvals * 2 < a.valor ∧
          ∀ b ∈ base.anomalias, ¬ b.id = a.id) ∧
        (extras.map (fun a => a.id)).Nodup ∧
        (∀ c ∈ cargas, ∀ v, floatOf c.valorRaw = .ok v →
          npMax hvals * 2 < v → ∃ a ∈ r.anomalias, a.id = c.id)) ∧
    (∃ rA : Resultado,
      App.analisar_com_historico scorer cargas (some historico) = rA ∧
      rA.comparacao_historico = some (App.histStatsOf hvals) ∧
      ∃ extras,
        rA.anomalias = (App.analisar_cargas scorer cargas).anomalias ++
          extras ∧
        (∀ a ∈ extras, a.tipo = .FORA_DO_HISTORICO ∧ a.severidade = 90 ∧
          a.valor_esperado = ((pyTrunc (npMean hvals) : ℤ) : ℚ) ∧
          ((pyTrunc (npMax hvals) : ℤ) : ℚ) * 2 < a.valor ∧
          ∀ b ∈ (App.analisar_cargas scorer cargas).anomalias,
            ¬ b.id = a.id) ∧
        (extras.map (fun a => a.id)).Nodup ∧
        (∀ c ∈ cargas, ∀ v, floatOf c.valorRaw = .ok v →
          ((pyTrunc (npMax hvals) : ℤ) : ℚ) * 2 < v →
          ∃ a ∈ rA.anomalias, a.id = c.id)) := by
  constructor
  · obtain ⟨final, hfin⟩ :=
      hist_foldlM_total (Det.histStatsOf hvals) cargas base.anomalias hcur
    have hrun : Det.analisar_com_historico scorer cargas (some historico) =
        .ok { base with
              anomalias := final,
              comparacao_historico := some (Det.histStatsOf hvals) } := by
      have step1 : Det.analisar_com_historico scorer cargas (some historico) =
          (if historico.length < 10 then .ok base
            else Det.hist_branch cargas base historico) := by
        unfold Det.analisar_com_historico
        rw [hbase, ok_bind]
      rw [step1, if_neg (by omega)]
      unfold Det.hist_branch
      rw [hhv]
      simp only [ok_bind, hfin]
    obtain ⟨extras, hfe, hprop, hnd, hcomp⟩ :=
      hist_foldlM_spec (Det.histStatsOf hvals) cargas base.anomalias final hfin
    refine ⟨_, hrun, rfl, extras, hfe, ?_, hnd, hcomp⟩
    intro a ha
    obtain ⟨⟨c, hc, v, hv, hlt, rfl⟩, hb⟩ := hprop a ha
    exact ⟨rfl, rfl, rfl, hlt, hb⟩
  · obtain ⟨finalA, hfinA⟩ :=
      app_hist_foldlM_total (App.histStatsOf hvals) cargas
        (App.analisar_cargas scorer cargas).anomalias hcur
    have hrunA : App.analisar_com_historico scorer cargas (some historico) =
        { App.analisar_cargas scorer cargas with
          anomalias := finalA,
          comparacao_historico := some (App.histStatsOf hvals) } := by
      have step1 : App.analisar_com_historico scorer cargas
          (some historico) =
          (if historico.length < 10 then App.analisar_cargas scorer cargas
            else App.hist_branch_caught cargas
              (App.analisar_cargas scorer cargas) historico) := rfl
      rw [step1, if_neg (by omega)]
      unfold App.hist_branch_caught
      rw [hhv]
      exact app_loop_caught_ok (App.histStatsOf hvals)
        (App.analisar_cargas scorer cargas) cargas
        (App.analisar_cargas scorer cargas).anomalias finalA hfinA
    obtain ⟨extras, hfe, hprop, hnd, hcomp⟩ :=
      app_hist_foldlM_spec (App.histStatsOf hvals) cargas
        (App.analisar_cargas scorer cargas).anomalias finalA hfinA
    refine ⟨_, hrunA, rfl, extras, hfe, ?_, hnd, hcomp⟩
    intro a ha
    obtain ⟨⟨c, hc, v, hv, hlt, rfl⟩, hb⟩ := hprop a ha
    exact ⟨rfl, rfl, rfl, hlt, hb⟩

/-- Witness for the amended C7: one current record of value `100` against
ten historical records of value `1`. -/
theorem C7_historical_augmenter_amended_witness :
    (∃ r : Resultado,
      Det.analisar_com_historico scorerNone [carga100] (some hist10) =
        .ok r ∧
      r.comparacao_historico =
        some (Det.histStatsOf (List.replicate 10 1)) ∧
      ∃ extras, r.anomalias = avisoResultado.anomalias ++ extras ∧
        (∀ a ∈ extras, a.tipo = .FORA_DO_HISTORICO ∧ a.severidade = 90 ∧
          a.valor_esperado = npMean (List.replicate 10 1) ∧
          npMax (List.replicate 10 1) * 2 < a.valor ∧
          ∀ b ∈ avisoResultado.anomalias, ¬ b.id = a.id) ∧
        (extras.map (fun a => a.id)).Nodup ∧
        (∀ c ∈ [carga100], ∀ v, floatOf c.valorRaw = .ok v →
          npMax (List.replicate 10 1) * 2 < v →
          ∃ a ∈ r.anomalias, a.id = c.id)) ∧
    (∃ rA : Resultado,
      App.analisar_com_historico scorerNone [carga100] (some hist10) = rA ∧
      rA.comparacao_historico =
        some (App.histStatsOf (List.replicate 10 1)) ∧
      ∃ extras,
        rA.anomalias =
          (App.analisar_cargas scorerNone [carga100]).anomalias ++ extras ∧
        (∀ a ∈ extras, a.tipo = .FORA_DO_HISTORICO ∧ a.severidade = 90 ∧
          a.valor_esperado =
            ((pyTrunc (npMean (List.replicate 10 1)) : ℤ) : ℚ) ∧
          ((pyTrunc (npMax (List.replicate 10 1)) : ℤ) : ℚ) * 2 < a.valor ∧
          ∀ b ∈ (App.analisar_cargas scorerNone [carga100]).anomalias,
            ¬ b.id = a.id) ∧
        (extras.map (fun a => a.id)).Nodup ∧
        (∀ c ∈ [carga100], ∀ v, floatOf c.valorRaw = .ok v →
          ((pyTrunc (npMax (List.replicate 10 1)) : ℤ) : ℚ) * 2 < v →
          ∃ a ∈ rA.anomalias, a.id = c.id)) :=
  C7_historical_augmenter_amended scorerNone [carga100] hist10
    avisoResultado (List.replicate 10 1) rfl (by norm_num [hist10]) rfl
    (fun c hc => by
      rw [List.mem_singleton] at hc
      exact ⟨100, by rw [hc]; rfl⟩)

/-- A single current record with value `20.8` (= 104/5) and identifier
`1`. -/
def cargaC7 : Carga := ⟨some 1, none, none, .num (104 / 5)⟩

/-- A 10-record history: nine values `1` and one value `10.6` (= 53/5),
whose maximum `10.6` and mean `1.96` are not integers. -/
def histC7 : List Carga :=
  [⟨none, none, none, .num 1⟩, ⟨none, none, none, .num 1⟩,
    ⟨none, none, none, .num 1⟩, ⟨none, none, none, .num 1⟩,
    ⟨none, none, none, .num 1⟩, ⟨none, none, none, .num 1⟩,
    ⟨none, none, none, .num 1⟩, ⟨none, none, none, .num 1⟩,
    ⟨none, none, none, .num 1⟩, ⟨none, none, none, .num (53 / 5)⟩]

/-- The value vector of `histC7`. -/
def hvalsC7 : List ℚ := [1, 1, 1, 1, 1, 1, 1, 1, 1, 53 / 5]

/-- Counterexample to C7 as stated: `app.py` compares against
`int(max_historico) * 2` and uses `int(media_historica)` as the expected
value (lines 178–203).  With historical maximum `10.6` and mean `1.96`,
a current record of value `20.8` is appended although `20.8` does not
exceed `2 × 10.6 = 21.2`, and the appended anomaly's expected value is
`1`, not the historical mean `1.96` — both halves of the claim fail on
`app.py`. -/
theorem C7_app_counterexample :
    (App.analisar_com_historico scorerNone [cargaC7] (some histC7)).anomalias.map
        (fun a => a.valor) = [104 / 5] ∧
    npMax hvalsC7 = 53 / 5 ∧ ¬ ((53 : ℚ) / 5) * 2 < 104 / 5 ∧
    (App.analisar_com_historico scorerNone [cargaC7] (some histC7)).anomalias.map
        (fun a => a.valor_esperado) = [1] ∧
    npMean hvalsC7 = 49 / 25 ∧ ((1 : ℚ) ≠ 49 / 25) := by
  have hmax53 : npMax hvalsC7 = 53 / 5 := by
    norm_num [hvalsC7, npMax, max_def]
  have hmean : npMean hvalsC7 = 49 / 25 := by
    norm_num [hvalsC7, npMean]
  have hmaxT : (App.histStatsOf hvalsC7).max_historico = 10 := by
    show ((pyTrunc (npMax hvalsC7) : ℤ) : ℚ) = 10
    rw [hmax53,
      show pyTrunc ((53 : ℚ) / 5) = 10 from by
        unfold pyTrunc
        rw [if_pos (by norm_num)]
        norm_num]
    norm_num
  have hstepC7 : App.hist_step (App.histStatsOf hvalsC7)
      avisoResultado.anomalias cargaC7 =
      .ok [App.hist_anomalia (App.histStatsOf hvalsC7) cargaC7 (104 / 5)] := by
    show App.hist_step (App.histStatsOf hvalsC7) [] cargaC7 = _
    unfold App.hist_step
    rw [show floatOf cargaC7.valorRaw = .ok ((104 : ℚ) / 5) from rfl, ok_bind]
    rw [hmaxT, if_pos (by norm_num), if_neg (by simp)]
    rfl
  have hfoldC7 : List.foldlM (App.hist_step (App.histStatsOf hvalsC7))
      avisoResultado.anomalias [cargaC7] =
      .ok [App.hist_anomalia (App.histStatsOf hvalsC7) cargaC7 (104 / 5)] := by
    rw [List.foldlM_cons, hstepC7, ok_bind, List.foldlM_nil]
    rfl
  have hrunC7 : App.analisar_com_historico scorerNone [cargaC7]
      (some histC7) =
      { avisoResultado with
        anomalias := [App.hist_anomalia (App.histStatsOf hvalsC7)
          cargaC7 (104 / 5)],
        comparacao_historico := some (App.histStatsOf hvalsC7) } := by
    have step1 : App.analisar_com_historico scorerNone [cargaC7]
        (some histC7) =
        (if histC7.length < 10 then avisoResultado
          else App.hist_branch_caught [cargaC7] avisoResultado histC7) := rfl
    rw [step1, if_neg (by norm_num [histC7])]
    unfold App.hist_branch_caught
    rw [show extrair_valores histC7 = .ok hvalsC7 from rfl]
    show App.hist_loop_caught (App.histStatsOf hvalsC7) avisoResultado
      avisoResultado.anomalias [cargaC7] = _
    exact app_loop_caught_ok (App.histStatsOf hvalsC7) avisoResultado
      [cargaC7] avisoResultado.anomalias _ hfoldC7
  refine ⟨?_, hmax53, by norm_num, ?_, hmean, by norm_num⟩
  · rw [hrunC7]
    rfl
  · rw [hrunC7]
    show [((pyTrunc (npMean hvalsC7) : ℤ) : ℚ)] = [1]
    rw [hmean,
      show pyTrunc ((49 : ℚ) / 25) = 1 from by
        unfold pyTrunc
        rw [if_pos (by norm_num)]
        norm_num]
    norm_num

/-- C8: with an absent history or a history of fewer than 10 records, the
historical analysis returns exactly the baseline result of
`analisar_cargas` — no field changed or added. -/
theorem C8_skip_short_history (scorer : Scorer) (cargas : List Carga)
    (historico : Option (List Carga))
    (h : historico = none ∨ ∃ hc, historico = some hc ∧ hc.length < 10) :
    Det.analisar_com_historico scorer cargas historico =
      Det.analisar_cargas scorer cargas := by
  rcases h with rfl | ⟨hc, rfl, hlen⟩
  · unfold Det.analisar_com_historico
    cases hr : Det.analisar_cargas scorer cargas with
    | error e => rw [error_bind]
    | ok base => rw [ok_bind]
  · unfold Det.analisar_com_historico
    cases hr : Det.analisar_cargas scorer cargas with
    | error e => rw [error_bind]
    | ok base =>
      rw [ok_bind]
      show (if hc.length < 10 then Except.ok base
        else Det.hist_branch cargas base hc) = Except.ok base
      rw [if_pos hlen]

/-- Witness for C8 with an absent history. -/
theorem C8_skip_short_history_witness :
    Det.analisar_com_historico scorerNone [] none =
      Det.analisar_cargas scorerNone [] :=
  C8_skip_short_history scorerNone [] none (Or.inl rfl)

/-- The result of the concrete historical run used below: one current
record of value `100` (baseline: too few records, no anomalies) against
ten historical records of value `1`. -/
def histRunResult : Resultado :=
  { avisoResultado with
    anomalias := [Det.hist_anomalia
      (Det.histStatsOf (List.replicate 10 1)) carga100 100],
    comparacao_historico := some (Det.histStatsOf (List.replicate 10 1)) }

/-- Evaluation of the concrete historical run: the `100` record exceeds
twice the historical maximum `1`, so one `FORA_DO_HISTORICO` anomaly is
appended and the historical summary attached. -/
theorem hist_run_eval :
    Det.analisar_com_historico scorerNone [carga100] (some hist10) =
      .ok histRunResult := by
  have hbase : Det.analisar_cargas scorerNone [carga100] =
      .ok avisoResultado := rfl
  have hhv : extrair_valores hist10 = .ok (List.replicate 10 (1 : ℚ)) := rfl
  have hmax : (Det.histStatsOf (List.replicate 10 (1 : ℚ))).max_historico = 1 := by
    show npMax (List.replicate 10 (1 : ℚ)) = 1
    rfl
  have hstep : Det.hist_step (Det.histStatsOf (List.replicate 10 (1 : ℚ)))
      avisoResultado.anomalias carga100 =
      .ok [Det.hist_anomalia (Det.histStatsOf (List.replicate 10 1))
        carga100 100] := by
    show Det.hist_step (Det.histStatsOf (List.replicate 10 (1 : ℚ)))
      [] carga100 = _
    unfold Det.hist_step
    rw [show floatOf carga100.valorRaw = .ok 100 from rfl, ok_bind]
    rw [hmax, if_pos (by norm_num), if_neg (by simp)]
    rfl
  have hfold : List.foldlM
      (Det.hist_step (Det.histStatsOf (List.replicate 10 (1 : ℚ))))
      avisoResultado.anomalias [carga100] =
      .ok [Det.hist_anomalia (Det.histStatsOf (List.replicate 10 1))
        carga100 100] := by
    rw [List.foldlM_cons, hstep, ok_bind, List.foldlM_nil]
    rfl
  have step1 : Det.analisar_com_historico scorerNone [carga100]
      (some hist10) =
      (if hist10.length < 10 then .ok avisoResultado
        else Det.hist_branch [carga100] avisoResultado hist10) := by
    unfold Det.analisar_com_historico
    rw [hbase, ok_bind]
  rw [step1, if_neg (by norm_num [hist10])]
  unfold Det.hist_branch
  rw [hhv]
  simp only [ok_bind, hfold]
  rfl

/-- Counterexample to C9 as stated: the historical run above appends a
`FORA_DO_HISTORICO` anomaly whose dict has no `chassis` key and no
`score_anomalia` key — the augmenter writes neither —, so not every
anomaly carries the full field set. -/
theorem C9_missing_fields_counterexample :
    (match Det.analisar_com_historico scorerNone [carga100] (some hist10) with
      | .ok r => r.anomalias.any
          (fun a => a.chassis.isNone && a.score_anomalia.isNone)
      | .error _ => false) = true := by
  rw [hist_run_eval]
  rfl

/-- C9 amended: every anomaly created by the scoring orchestrator carries
the `chassis` and raw-score keys (besides the always-present identifier,
vehicle, value, type, severity, suggestion and expected-value entries),
while every anomaly appended by the historical augmenter — exactly those
of type `FORA_DO_HISTORICO` — carries neither a `chassis` key nor a
`score_anomalia` key. -/
theorem C9_anomaly_fields_amended (scorer : Scorer) (cargas : List Carga)
    (historico : Option (List Carga)) (r : Resultado)
    (h : Det.analisar_com_historico scorer cargas historico = .ok r) :
    ∀ a ∈ r.anomalias,
      (a.tipo ≠ .FORA_DO_HISTORICO →
        a.chassis.isSome ∧ a.score_anomalia.isSome) ∧
      (a.tipo = .FORA_DO_HISTORICO →
        a.chassis = none ∧ a.score_anomalia = none) := by
  unfold Det.analisar_com_historico at h
  cases hbase : Det.analisar_cargas scorer cargas with
  | error e => rw [hbase, error_bind] at h; exact absurd h (by simp)
  | ok base =>
    rw [hbase, ok_bind] at h
    have hbs := det_base_shape scorer cargas base hbase
    have hbase_case : ∀ r2 : Resultado, base = r2 →
        ∀ a ∈ r2.anomalias,
          (a.tipo ≠ .FORA_DO_HISTORICO →
            a.chassis.isSome ∧ a.score_anomalia.isSome) ∧
          (a.tipo = .FORA_DO_HISTORICO →
            a.chassis = none ∧ a.score_anomalia = none) := by
      intro r2 hr2 a ha
      rw [← hr2] at ha
      obtain ⟨h1, h2, h3⟩ := hbs a ha
      exact ⟨fun _ => ⟨h1, h2⟩, fun hcon => absurd hcon h3⟩
    cases historico with
    | none => exact hbase_case r (Except.ok.inj h)
    | some hist =>
      have h2 : (if hist.length < 10
          then (Except.ok base : Except String Resultado)
          else Det.hist_branch cargas base hist) = .ok r := h
      by_cases hlen : hist.length < 10
      · rw [if_pos hlen] at h2
        exact hbase_case r (Except.ok.inj h2)
      · rw [if_neg hlen] at h2
        unfold Det.hist_branch at h2
        cases hhv : extrair_valores hist with
        | error e => rw [hhv, error_bind] at h2; exact absurd h2 (by simp)
        | ok hvals =>
          rw [hhv] at h2
          simp only [ok_bind] at h2
          cases hfin : List.foldlM
              (Det.hist_step (Det.histStatsOf hvals))
              base.anomalias cargas with
          | error e => rw [hfin, error_bind] at h2; exact absurd h2 (by simp)
          | ok final =>
            rw [hfin] at h2
            simp only [ok_bind] at h2
            obtain ⟨extras, hfe, hprop, hnd, hcomp⟩ :=
              hist_foldlM_spec (Det.histStatsOf hvals) cargas
                base.anomalias final hfin
            intro a ha
            rw [← Except.ok.inj h2] at ha
            have ha2 : a ∈ final := ha
            rcases List.mem_append.mp (hfe ▸ ha2) with hbmem | hexmem
            · obtain ⟨h1, h2x, h3⟩ := hbs a hbmem
              exact ⟨fun _ => ⟨h1, h2x⟩, fun hcon => absurd hcon h3⟩
            · obtain ⟨⟨c, hc, v, hv, hlt, rfl⟩, hb⟩ := hprop a hexmem
              exact ⟨fun hcon => absurd rfl hcon, fun _ => ⟨rfl, rfl⟩⟩

/-- Witness for the amended C9 at the appended anomaly of the concrete
historical run. -/
theorem C9_anomaly_fields_amended_witness :
    ((Det.hist_anomalia (Det.histStatsOf (List.replicate 10 1))
        carga100 100).tipo ≠ .FORA_DO_HISTORICO →
      (Det.hist_anomalia (Det.histStatsOf (List.replicate 10 1))
        carga100 100).chassis.isSome ∧
      (Det.hist_anomalia (Det.histStatsOf (List.replicate 10 1))
        carga100 100).score_anomalia.isSome) ∧
    ((Det.hist_anomalia (Det.histStatsOf (List.replicate 10 1))
        carga100 100).tipo = .FORA_DO_HISTORICO →
      (Det.hist_anomalia (Det.histStatsOf (List.replicate 10 1))
        carga100 100).chassis = none ∧
      (Det.hist_anomalia (Det.histStatsOf (List.replicate 10 1))
        carga100 100).score_anomalia = none) :=
  C9_anomaly_fields_amended scorerNone [carga100] (some hist10)
    histRunResult hist_run_eval
    (Det.hist_anomalia (Det.histStatsOf (List.replicate 10 1)) carga100 100)
    (by simp [histRunResult])
